import Mathlib

/-!
Nano-Q: verification of the spec against the code

Shallow embedding of the three scripts of the Nano-Q repository
(`Nano-Q/gemini_viz.py`, `gemini_qa.py`, `nano-summarizer-website/gemini_qa.py`)
and proofs about the claims of the specification.

Python strings are embedded as `List Char`.  The JSON fragment handled by the
scripts (objects, arrays, strings, integers, booleans, null — the values the
Python `json` module produces and the scripts consume) is embedded as the
inductive `JsonVal`; `render` mirrors `json.dumps` (default separators) and
`jsonLoads` mirrors `json.loads` on that fragment.  Objects are association
lists of members, in source order.
-/

namespace NanoQ

/-- Characters of a Python string. -/
abbrev Str := List Char

/-- Shorthand to write character-list literals. -/
def toL (s : String) : Str := s.toList

/-- Whitespace as recognized by Python `str.strip` and the regex class `\s`
(we model the ASCII fragment: space, tab, newline, carriage return, vertical
tab, form feed). -/
def isPyWs (c : Char) : Bool :=
  c.toNat == 32 || c.toNat == 9 || c.toNat == 10 || c.toNat == 13 ||
  c.toNat == 11 || c.toNat == 12

/-- ASCII decimal digit test. -/
def isDigit (c : Char) : Bool := 48 ≤ c.toNat && c.toNat ≤ 57

/-- JSON values, as the Python `json` module exchanges them with the scripts.
Objects are association lists of members in source order; numbers are the
integer fragment (the scripts' chart values; float syntax is outside the
modeled fragment). -/
inductive JsonVal where
  | null
  | bool (b : Bool)
  | num (n : Int)
  | str (s : Str)
  | arr (elems : List JsonVal)
  | obj (members : List (Str × JsonVal))

instance : Inhabited JsonVal := ⟨JsonVal.null⟩

/-- The decimal digit character of `d` (for `d ≤ 9`). -/
def digitChar (d : Nat) : Char :=
  if d = 0 then '0' else if d = 1 then '1' else if d = 2 then '2'
  else if d = 3 then '3' else if d = 4 then '4' else if d = 5 then '5'
  else if d = 6 then '6' else if d = 7 then '7' else if d = 8 then '8'
  else '9'

/-- Decimal digits of a natural number, most significant first. -/
def natDigits (n : Nat) : Str :=
  if _h : n < 10 then [digitChar n]
  else natDigits (n / 10) ++ [digitChar (n % 10)]
decreasing_by exact Nat.div_lt_self (by omega) (by decide)

/-- Decimal rendering of an integer, as `json.dumps` prints it. -/
def renderInt (i : Int) : Str :=
  if i < 0 then '-' :: natDigits (-i).toNat else natDigits i.toNat

/-- Escaping of one character inside a JSON string literal (the fragment of
`json.dumps` escaping the scripts exercise: quote, backslash and the common
control characters). -/
def escChar (c : Char) : Str :=
  if c = '"' then ['\\', '"']
  else if c = '\\' then ['\\', '\\']
  else if c = '\n' then ['\\', 'n']
  else if c = '\t' then ['\\', 't']
  else if c = '\r' then ['\\', 'r']
  else [c]

/-- Escaping of a JSON string body. -/
def escape : Str → Str
  | [] => []
  | c :: cs => escChar c ++ escape cs

/-- A JSON string literal: quote, escaped body, quote. -/
def renderStr (s : Str) : Str := '"' :: (escape s ++ ['"'])

mutual

/-- Serialization of a JSON value in the format `json.dumps` produces with its
default separators `", "` and `": "`. -/
def render : JsonVal → Str
  | .null => toL "null"
  | .bool true => toL "true"
  | .bool false => toL "false"
  | .num i => renderInt i
  | .str s => renderStr s
  | .arr [] => toL "[]"
  | .arr (x :: xs) => '[' :: (render x ++ renderElemsTail xs) ++ [']']
  | .obj [] => toL "\x7b\x7d"
  | .obj (m :: ms) => '\x7b' :: (renderMember m ++ renderMembersTail ms) ++ ['\x7d']

/-- One object member: `"key": value`. -/
def renderMember : Str × JsonVal → Str
  | (k, v) => renderStr k ++ ':' :: ' ' :: render v

/-- The `", "`-separated continuation of an array's element list. -/
def renderElemsTail : List JsonVal → Str
  | [] => []
  | y :: ys => ',' :: ' ' :: (render y ++ renderElemsTail ys)

/-- The `", "`-separated continuation of an object's member list. -/
def renderMembersTail : List (Str × JsonVal) → Str
  | [] => []
  | m :: ms => ',' :: ' ' :: (renderMember m ++ renderMembersTail ms)

end

/-- Drop leading whitespace. -/
def skipWs (s : Str) : Str := s.dropWhile fun c => isPyWs c

/-- Decoding of one escaped character in a JSON string literal. -/
def unescChar (e : Char) : Char :=
  if e = 'n' then '\n' else if e = 't' then '\t' else if e = 'r' then '\r' else e

/-- Parse the body of a JSON string literal after the opening quote, up to and
including the closing quote.  Returns the decoded body and the rest of the
input. -/
def parseStringBody : Str → Option (Str × Str)
  | [] => none
  | c :: r =>
    if c = '"' then some ([], r)
    else if c = '\\' then
      match r with
      | [] => none
      | e :: r2 => (parseStringBody r2).map fun p => (unescChar e :: p.1, p.2)
    else (parseStringBody r).map fun p => (c :: p.1, p.2)

/-- Accumulate a run of decimal digits into a number; stops at the first
non-digit. -/
def parseNatAux (acc : Nat) : Str → Nat × Str
  | [] => (acc, [])
  | c :: cs =>
    if isDigit c then parseNatAux (acc * 10 + (c.toNat - 48)) cs else (acc, c :: cs)

/-- Remove a literal prefix, or fail. -/
def stripPrefixL : Str → Str → Option Str
  | [], s => some s
  | _ :: _, [] => none
  | p :: ps, c :: cs => if c = p then stripPrefixL ps cs else none

mutual

/-- Recursive-descent parse of one JSON value (the fragment of `json.loads`
the scripts exercise), with fuel bounding the recursion depth.  Returns the
value and the unconsumed rest of the input. -/
def parseVal : Nat → Str → Option (JsonVal × Str)
  | 0, _ => none
  | fuel + 1, s =>
    match skipWs s with
    | [] => none
    | c :: r =>
      if c = 'n' then (stripPrefixL (toL "ull") r).map fun r2 => (.null, r2)
      else if c = 't' then (stripPrefixL (toL "rue") r).map fun r2 => (.bool true, r2)
      else if c = 'f' then (stripPrefixL (toL "alse") r).map fun r2 => (.bool false, r2)
      else if c = '"' then (parseStringBody r).map fun p => (.str p.1, p.2)
      else if c = '[' then
        match skipWs r with
        | ']' :: r2 => some (.arr [], r2)
        | s2 => (parseElems fuel s2).map fun p => (.arr p.1, p.2)
      else if c = '\x7b' then
        match skipWs r with
        | '\x7d' :: r2 => some (.obj [], r2)
        | s2 => (parseMembers fuel s2).map fun p => (.obj p.1, p.2)
      else if c = '-' then
        match r with
        | c2 :: _ =>
          if isDigit c2 then
            let p := parseNatAux 0 r
            some (.num (-(p.1 : Int)), p.2)
          else none
        | [] => none
      else if isDigit c then
        let p := parseNatAux 0 (c :: r)
        some (.num (p.1 : Int), p.2)
      else none

/-- Parse the elements of a non-empty JSON array after the opening bracket,
up to and including the closing bracket. -/
def parseElems : Nat → Str → Option (List JsonVal × Str)
  | 0, _ => none
  | fuel + 1, s =>
    match parseVal fuel s with
    | none => none
    | some (v, r) =>
      match skipWs r with
      | ',' :: r2 =>
        match parseElems fuel r2 with
        | none => none
        | some (vs, r3) => some (v :: vs, r3)
      | ']' :: r2 => some ([v], r2)
      | _ => none

/-- Parse the members of a non-empty JSON object after the opening brace,
up to and including the closing brace. -/
def parseMembers : Nat → Str → Option (List (Str × JsonVal) × Str)
  | 0, _ => none
  | fuel + 1, s =>
    match skipWs s with
    | '"' :: r =>
      match parseStringBody r with
      | none => none
      | some (k, r1) =>
        match skipWs r1 with
        | ':' :: r2 =>
          match parseVal fuel r2 with
          | none => none
          | some (v, r3) =>
            match skipWs r3 with
            | ',' :: r4 =>
              match parseMembers fuel r4 with
              | none => none
              | some (ms, r5) => some ((k, v) :: ms, r5)
            | '\x7d' :: r4 => some ([(k, v)], r4)
            | _ => none
        | _ => none
    | _ => none

end

/-- `json.loads` on the modeled fragment: parse one value and require only
whitespace to remain; `none` is a `json.JSONDecodeError`. -/
def jsonLoads (s : Str) : Option JsonVal :=
  match parseVal (s.length + 1) s with
  | some (v, rest) => if skipWs rest = [] then some v else none
  | none => none

/-- Python `str.strip()`: drop whitespace from both ends. -/
def pyStrip (s : Str) : Str :=
  ((s.dropWhile fun c => isPyWs c).reverse.dropWhile fun c => isPyWs c).reverse

/-- The code-fence-stripping step of `gemini_viz.py`:
`re.sub(r"^```json\s*|\s*```$", "", s)`.  The first alternative removes a
leading ` ```json ` marker with the whitespace after it; the second removes a
trailing ` ``` ` marker with the whitespace before it. -/
def stripFence (s : Str) : Str :=
  let s1 := match stripPrefixL (toL "```json") s with
    | some r => r.dropWhile fun c => isPyWs c
    | none => s
  match stripPrefixL (toL "```") s1.reverse with
  | some r => (r.dropWhile fun c => isPyWs c).reverse
  | none => s1

/-- A list all of whose characters are whitespace. -/
def wsAll (w : Str) : Prop := ∀ c ∈ w, isPyWs c = true

instance (w : Str) : Decidable (wsAll w) := by
  unfold wsAll
  infer_instance

/-- A list that does not start with a decimal digit (so that a number parse
just before it stops exactly there). -/
def digFree : Str → Bool
  | [] => true
  | c :: _ => !isDigit c

mutual

/-- Fuel needed by `parseVal` to parse a rendered value. -/
def sizeJ : JsonVal → Nat
  | .arr xs => 1 + elemsNeed xs
  | .obj ms => 1 + memsNeed ms
  | _ => 1

/-- Fuel needed by `parseElems` on a rendered element list. -/
def elemsNeed : List JsonVal → Nat
  | [] => 0
  | x :: xs => 1 + sizeJ x + elemsNeed xs

/-- Fuel needed by `parseMembers` on a rendered member list. -/
def memsNeed : List (Str × JsonVal) → Nat
  | [] => 0
  | m :: ms => 1 + sizeJ m.2 + memsNeed ms

end

theorem skipWs_cons_not_ws {c : Char} (h : isPyWs c = false) (s : Str) :
    skipWs (c :: s) = c :: s := by
  simp [skipWs, List.dropWhile_cons, h]

theorem skipWs_cons_ws {c : Char} (h : isPyWs c = true) (s : Str) :
    skipWs (c :: s) = skipWs s := by
  simp [skipWs, List.dropWhile_cons, h]

theorem skipWs_append_ws {w : Str} (h : wsAll w) (s : Str) :
    skipWs (w ++ s) = skipWs s := by
  induction w with
  | nil => rfl
  | cons c cs ih =>
      have hc : isPyWs c = true := h c (by simp)
      have hcs : wsAll cs := fun d hd => h d (by simp [hd])
      simp only [List.cons_append, skipWs_cons_ws hc, ih hcs]

theorem stripPrefixL_append (p s : Str) : stripPrefixL p (p ++ s) = some s := by
  induction p with
  | nil => rfl
  | cons c cs ih => simp [stripPrefixL, ih]

theorem stripPrefixL_ne {p c : Char} (hc : c ≠ p) (ps cs : Str) :
    stripPrefixL (p :: ps) (c :: cs) = none := by
  simp [stripPrefixL, hc]

theorem parseStringBody_escape (s rest : Str) :
    parseStringBody (escape s ++ ('"' :: rest)) = some (s, rest) := by
  induction s with
  | nil =>
      simp only [escape, List.nil_append]
      rw [parseStringBody.eq_def]
      simp
  | cons c cs ih =>
      by_cases h1 : c = '"'
      · subst h1
        have he : escape ('"' :: cs) = '\\' :: '"' :: escape cs := rfl
        rw [he, List.cons_append, List.cons_append, parseStringBody.eq_def]
        simp [ih, unescChar]
      · by_cases h2 : c = '\\'
        · subst h2
          have he : escape ('\\' :: cs) = '\\' :: '\\' :: escape cs := rfl
          rw [he, List.cons_append, List.cons_append, parseStringBody.eq_def]
          simp [ih, unescChar]
        · by_cases h3 : c = '\n'
          · subst h3
            have he : escape ('\n' :: cs) = '\\' :: 'n' :: escape cs := rfl
            rw [he, List.cons_append, List.cons_append, parseStringBody.eq_def]
            simp [ih, unescChar]
          · by_cases h4 : c = '\t'
            · subst h4
              have he : escape ('\t' :: cs) = '\\' :: 't' :: escape cs := rfl
              rw [he, List.cons_append, List.cons_append, parseStringBody.eq_def]
              simp [ih, unescChar]
            · by_cases h5 : c = '\r'
              · subst h5
                have he : escape ('\r' :: cs) = '\\' :: 'r' :: escape cs := rfl
                rw [he, List.cons_append, List.cons_append, parseStringBody.eq_def]
                simp [ih, unescChar]
              · have he : escape (c :: cs) = c :: escape cs := by
                  simp [escape, escChar, h1, h2, h3, h4, h5]
                rw [he, List.cons_append, parseStringBody.eq_def]
                simp [h1, h2, ih]

theorem digitChar_isDigit (d : Nat) : isDigit (digitChar d) = true := by
  unfold digitChar
  split_ifs <;> decide

theorem digitChar_toNat {d : Nat} (h : d < 10) : (digitChar d).toNat - 48 = d := by
  interval_cases d <;> decide

theorem parseNatAux_append (ds : Str) (hds : ∀ c ∈ ds, isDigit c = true) :
    ∀ (acc : Nat) (rest : Str), digFree rest = true →
      parseNatAux acc (ds ++ rest) =
        (List.foldl (fun a c => a * 10 + (c.toNat - 48)) acc ds, rest) := by
  induction ds with
  | nil =>
      intro acc rest hr
      cases rest with
      | nil => rfl
      | cons c t =>
          have hc : isDigit c = false := by
            simp only [digFree, Bool.not_eq_true'] at hr
            exact hr
          simp [parseNatAux, hc]
  | cons d ds ih =>
      intro acc rest hr
      have hd : isDigit d = true := hds d (by simp)
      have hds' : ∀ c ∈ ds, isDigit c = true := fun c hc => hds c (by simp [hc])
      simp only [List.cons_append, parseNatAux, hd, if_pos, List.foldl_cons]
      exact ih hds' _ rest hr

theorem natDigits_digits (n : Nat) : ∀ c ∈ natDigits n, isDigit c = true := by
  induction n using Nat.strong_induction_on with
  | _ n ih =>
      rw [natDigits.eq_def]
      split
      · intro c hc
        simp only [List.mem_singleton] at hc
        subst hc
        exact digitChar_isDigit n
      · intro c hc
        rcases List.mem_append.1 hc with h | h
        · exact ih (n / 10) (Nat.div_lt_self (by omega) (by decide)) c h
        · simp only [List.mem_singleton] at h
          subst h
          exact digitChar_isDigit (n % 10)

theorem foldl_natDigits (n : Nat) : ∀ acc : Nat,
    List.foldl (fun a c => a * 10 + (c.toNat - 48)) acc (natDigits n)
      = acc * 10 ^ (natDigits n).length + n := by
  induction n using Nat.strong_induction_on with
  | _ n ih =>
      intro acc
      rw [natDigits.eq_def]
      split
      · rename_i h
        simp [digitChar_toNat h]
      · rename_i h
        rw [List.foldl_append, ih (n / 10) (Nat.div_lt_self (by omega) (by decide)) acc]
        have hm : ((digitChar (n % 10)).toNat - 48) = n % 10 :=
          digitChar_toNat (Nat.mod_lt _ (by omega))
        simp only [List.foldl_cons, List.foldl_nil, List.length_append,
          List.length_singleton, hm, pow_succ]
        have : (n / 10) * 10 + n % 10 = n := by omega
        ring_nf
        omega

theorem parseNatAux_natDigits (n : Nat) (rest : Str) (hr : digFree rest = true) :
    parseNatAux 0 (natDigits n ++ rest) = (n, rest) := by
  rw [parseNatAux_append (natDigits n) (natDigits_digits n) 0 rest hr, foldl_natDigits]
  simp

theorem natDigits_cons (n : Nat) : ∃ c t, natDigits n = c :: t ∧ isDigit c = true := by
  cases hnd : natDigits n with
  | nil =>
      exfalso
      rw [natDigits.eq_def] at hnd
      revert hnd
      split <;> simp
  | cons c t =>
      refine ⟨c, t, rfl, natDigits_digits n c ?_⟩
      rw [hnd]
      simp

theorem digit_head_ok {c : Char} (h : isDigit c = true) :
    isPyWs c = false ∧ c ≠ ']' ∧ c ≠ '\x7d' := by
  refine ⟨?_, ?_, ?_⟩
  · simp only [isDigit, Bool.and_eq_true, decide_eq_true_eq] at h
    simp only [isPyWs, Bool.or_eq_false_iff, beq_eq_false_iff_ne, ne_eq]
    omega
  · rintro rfl
    exact absurd h (by decide)
  · rintro rfl
    exact absurd h (by decide)

/-- The first character of every rendered JSON value: not whitespace and not a
closing bracket or brace. -/
theorem render_cons (j : JsonVal) :
    ∃ c t, render j = c :: t ∧ isPyWs c = false ∧ c ≠ ']' ∧ c ≠ '\x7d' := by
  cases j with
  | num i =>
      by_cases hi : i < 0
      · refine ⟨'-', natDigits (-i).toNat, ?_, by decide, by decide, by decide⟩
        simp [render, renderInt, hi]
      · obtain ⟨c, t, hct, hd⟩ := natDigits_cons i.toNat
        obtain ⟨h1, h2, h3⟩ := digit_head_ok hd
        refine ⟨c, t, ?_, h1, h2, h3⟩
        simp [render, renderInt, hi, hct]
  | null =>
      refine ⟨'n', _, rfl, ?_, ?_, ?_⟩ <;> decide
  | bool b =>
      rcases b with _ | _
      · refine ⟨'f', _, rfl, ?_, ?_, ?_⟩ <;> decide
      · refine ⟨'t', _, rfl, ?_, ?_, ?_⟩ <;> decide
  | str s =>
      refine ⟨'"', _, rfl, ?_, ?_, ?_⟩ <;> decide
  | arr xs =>
      rcases xs with _ | ⟨x, xs⟩
      · refine ⟨'[', _, rfl, ?_, ?_, ?_⟩ <;> decide
      · refine ⟨'[', _, rfl, ?_, ?_, ?_⟩ <;> decide
  | obj ms =>
      rcases ms with _ | ⟨m, ms⟩
      · refine ⟨'\x7b', _, rfl, ?_, ?_, ?_⟩ <;> decide
      · refine ⟨'\x7b', _, rfl, ?_, ?_, ?_⟩ <;> decide

theorem skipWs_rbracket (s : Str) : skipWs (']' :: s) = ']' :: s :=
  skipWs_cons_not_ws (by decide) s

theorem skipWs_rbrace (s : Str) : skipWs ('\x7d' :: s) = '\x7d' :: s :=
  skipWs_cons_not_ws (by decide) s

theorem skipWs_comma (s : Str) : skipWs (',' :: s) = ',' :: s :=
  skipWs_cons_not_ws (by decide) s

theorem skipWs_colon (s : Str) : skipWs (':' :: s) = ':' :: s :=
  skipWs_cons_not_ws (by decide) s

theorem sizeJ_pos (j : JsonVal) : 1 ≤ sizeJ j := by
  cases j <;> simp [sizeJ]

theorem digit_head_not_kw {c : Char} (h : isDigit c = true) :
    c ≠ 'n' ∧ c ≠ 't' ∧ c ≠ 'f' ∧ c ≠ '"' ∧ c ≠ '[' ∧ c ≠ '\x7b' ∧ c ≠ '-' := by
  refine ⟨?_, ?_, ?_, ?_, ?_, ?_, ?_⟩ <;> (rintro rfl; exact absurd h (by decide))

/-- The composable round-trip: a rendered value (with whitespace before it and
a non-digit continuation after it) parses back to itself, and likewise for
rendered element and member lists.  Strong induction on the needed fuel. -/
theorem parse_render_aux : ∀ n : Nat,
    (∀ j : JsonVal, sizeJ j ≤ n → ∀ fuel : Nat, sizeJ j ≤ fuel → ∀ w rest : Str,
       wsAll w → digFree rest = true →
       parseVal fuel (w ++ render j ++ rest) = some (j, rest))
  ∧ (∀ (x : JsonVal) (xs : List JsonVal), elemsNeed (x :: xs) ≤ n →
       ∀ fuel : Nat, elemsNeed (x :: xs) ≤ fuel → ∀ w rest : Str, wsAll w →
       parseElems fuel (w ++ render x ++ (renderElemsTail xs ++ (']' :: rest)))
         = some (x :: xs, rest))
  ∧ (∀ (k : Str) (v : JsonVal) (ms : List (Str × JsonVal)), memsNeed ((k, v) :: ms) ≤ n →
       ∀ fuel : Nat, memsNeed ((k, v) :: ms) ≤ fuel → ∀ w rest : Str, wsAll w →
       parseMembers fuel (w ++ renderMember (k, v) ++ (renderMembersTail ms ++ ('\x7d' :: rest)))
         = some ((k, v) :: ms, rest)) := by
  intro n
  induction n using Nat.strong_induction_on with
  | _ n ih =>
  refine ⟨?_, ?_, ?_⟩
  · -- values
    intro j hjn fuel hjf w rest hw hrest
    obtain ⟨f, rfl⟩ : ∃ f, fuel = f + 1 := ⟨fuel - 1, by have := sizeJ_pos j; omega⟩
    cases j with
    | null =>
        simp only [render, parseVal, List.append_assoc, skipWs_append_ws hw]
        rw [show toL "null" ++ rest = 'n' :: (toL "ull" ++ rest) from rfl,
          skipWs_cons_not_ws (by decide)]
        simp [stripPrefixL_append]
    | bool b =>
        cases b with
        | true =>
            simp only [render, parseVal, List.append_assoc, skipWs_append_ws hw]
            rw [show toL "true" ++ rest = 't' :: (toL "rue" ++ rest) from rfl,
              skipWs_cons_not_ws (by decide)]
            simp [stripPrefixL_append]
        | false =>
            simp only [render, parseVal, List.append_assoc, skipWs_append_ws hw]
            rw [show toL "false" ++ rest = 'f' :: (toL "alse" ++ rest) from rfl,
              skipWs_cons_not_ws (by decide)]
            simp [stripPrefixL_append]
    | num i =>
        rcases lt_or_le i 0 with hi | hi
        · obtain ⟨c2, t2, h2, hd2⟩ := natDigits_cons (-i).toNat
          have hr : render (.num i) = '-' :: (c2 :: t2) := by
            simp [render, renderInt, hi, h2]
          have hpn : parseNatAux 0 (c2 :: (t2 ++ rest)) = ((-i).toNat, rest) := by
            rw [← List.cons_append, ← h2]
            exact parseNatAux_natDigits _ rest hrest
          have hi2 : ((-i).toNat : Int) = -i := Int.toNat_of_nonneg (by omega)
          rw [hr]
          simp only [parseVal, List.append_assoc, List.cons_append, skipWs_append_ws hw]
          rw [skipWs_cons_not_ws (by decide)]
          simp [hd2, hpn, hi2]
        · obtain ⟨c2, t2, h2, hd2⟩ := natDigits_cons i.toNat
          obtain ⟨hw2, _, _⟩ := digit_head_ok hd2
          obtain ⟨k1, k2, k3, k4, k5, k6, k7⟩ := digit_head_not_kw hd2
          have hr : render (.num i) = c2 :: t2 := by
            simp [render, renderInt, not_lt.2 hi, h2]
          have hpn : parseNatAux 0 (c2 :: (t2 ++ rest)) = (i.toNat, rest) := by
            rw [← List.cons_append, ← h2]
            exact parseNatAux_natDigits _ rest hrest
          have hi2 : (i.toNat : Int) = i := Int.toNat_of_nonneg hi
          rw [hr]
          simp only [parseVal, List.append_assoc, List.cons_append, skipWs_append_ws hw]
          rw [skipWs_cons_not_ws hw2]
          simp [k1, k2, k3, k4, k5, k6, k7, hd2, hpn, hi2]
    | str s =>
        simp only [render, renderStr, parseVal, List.append_assoc, List.cons_append,
          skipWs_append_ws hw]
        rw [skipWs_cons_not_ws (by decide)]
        simp [parseStringBody_escape]
    | arr xs =>
        cases xs with
        | nil =>
            simp only [render, parseVal, List.append_assoc, skipWs_append_ws hw]
            rw [show toL "[]" ++ rest = '[' :: (']' :: rest) from rfl,
              skipWs_cons_not_ws (by decide)]
            simp [skipWs_rbracket]
        | cons x xs =>
            obtain ⟨cx, tx, hx, hxw, hx1, hx2⟩ := render_cons x
            have hsz : elemsNeed (x :: xs) < n := by
              have hs : sizeJ (.arr (x :: xs)) = 1 + elemsNeed (x :: xs) := by simp [sizeJ]
              omega
            have hfe : elemsNeed (x :: xs) ≤ f := by
              have hs : sizeJ (.arr (x :: xs)) = 1 + elemsNeed (x :: xs) := by simp [sizeJ]
              omega
            have h2 := (ih (elemsNeed (x :: xs)) hsz).2.1 x xs le_rfl f hfe [] rest
              (by intro c hc; simp at hc)
            rw [hx] at h2
            simp only [List.nil_append, List.cons_append, List.append_assoc] at h2
            have hr : render (.arr (x :: xs))
                = '[' :: ((render x ++ renderElemsTail xs) ++ [']']) := rfl
            rw [hr, hx]
            simp only [parseVal, List.append_assoc, List.cons_append, List.nil_append,
              skipWs_append_ws hw]
            rw [skipWs_cons_not_ws (by decide)]
            simp [skipWs_cons_not_ws hxw]
            split
            · rename_i heq
              rw [List.cons_eq_cons] at heq
              exact absurd heq.1 hx1
            · rw [h2]
              rfl
    | obj ms =>
        cases ms with
        | nil =>
            simp only [render, parseVal, List.append_assoc, skipWs_append_ws hw]
            rw [show toL "\x7b\x7d" ++ rest = '\x7b' :: ('\x7d' :: rest) from rfl,
              skipWs_cons_not_ws (by decide)]
            simp [skipWs_rbrace]
        | cons m ms =>
            obtain ⟨k, v⟩ := m
            have hsz : memsNeed ((k, v) :: ms) < n := by
              have hs : sizeJ (.obj ((k, v) :: ms)) = 1 + memsNeed ((k, v) :: ms) := by
                simp [sizeJ]
              omega
            have hfe : memsNeed ((k, v) :: ms) ≤ f := by
              have hs : sizeJ (.obj ((k, v) :: ms)) = 1 + memsNeed ((k, v) :: ms) := by
                simp [sizeJ]
              omega
            have h2 := (ih (memsNeed ((k, v) :: ms)) hsz).2.2 k v ms le_rfl f hfe [] rest
              (by intro c hc; simp at hc)
            simp only [List.nil_append, renderMember, renderStr, List.cons_append,
              List.append_assoc, List.singleton_append] at h2
            have hr : render (.obj ((k, v) :: ms))
                = '\x7b' :: ((renderMember (k, v) ++ renderMembersTail ms) ++ ['\x7d']) := rfl
            rw [hr]
            simp only [renderMember, renderStr, parseVal, List.append_assoc,
              List.cons_append, List.nil_append, List.singleton_append,
              skipWs_append_ws hw]
            rw [skipWs_cons_not_ws (by decide)]
            simp [skipWs_cons_not_ws (show isPyWs '"' = false from by decide)]
            exact h2
  · -- element lists
    intro x xs hen fuel hef w rest hw
    obtain ⟨f, rfl⟩ : ∃ f, fuel = f + 1 := ⟨fuel - 1, by simp [elemsNeed] at hef; omega⟩
    simp only [elemsNeed] at hen hef
    have hsx : sizeJ x < n := by omega
    have hfx : sizeJ x ≤ f := by omega
    have hrest' : digFree (renderElemsTail xs ++ (']' :: rest)) = true := by
      cases xs with
      | nil =>
          simp [renderElemsTail, digFree]
          decide
      | cons y ys =>
          simp [renderElemsTail, digFree]
          decide
    have h1 := (ih (sizeJ x) hsx).1 x le_rfl f hfx w
      (renderElemsTail xs ++ (']' :: rest)) hw hrest'
    simp only [parseElems]
    rw [show w ++ render x ++ (renderElemsTail xs ++ (']' :: rest))
        = w ++ render x ++ (renderElemsTail xs ++ (']' :: rest)) from rfl, h1]
    cases xs with
    | nil =>
        simp [renderElemsTail, skipWs_rbracket]
    | cons y ys =>
        have hsy : elemsNeed (y :: ys) < n := by simp only [elemsNeed] at hen ⊢; omega
        have hfy : elemsNeed (y :: ys) ≤ f := by simp only [elemsNeed] at hef ⊢; omega
        have h3 := (ih (elemsNeed (y :: ys)) hsy).2.1 y ys le_rfl f hfy [' '] rest
          (by intro c hc; simp at hc; subst hc; decide)
        simp only [List.cons_append, List.nil_append, List.append_assoc] at h3
        simp only [renderElemsTail, List.cons_append, List.append_assoc]
        rw [skipWs_comma]
        simp [h3]
  · -- member lists
    intro k v ms hmn fuel hmf w rest hw
    obtain ⟨f, rfl⟩ : ∃ f, fuel = f + 1 := ⟨fuel - 1, by simp [memsNeed] at hmf; omega⟩
    simp only [memsNeed] at hmn hmf
    have hsv : sizeJ v < n := by omega
    have hfv : sizeJ v ≤ f := by omega
    have hrest' : digFree (renderMembersTail ms ++ ('\x7d' :: rest)) = true := by
      cases ms with
      | nil =>
          simp [renderMembersTail, digFree]
          decide
      | cons m2 ms2 =>
          simp [renderMembersTail, digFree]
          decide
    have h1 := (ih (sizeJ v) hsv).1 v le_rfl f hfv [' ']
      (renderMembersTail ms ++ ('\x7d' :: rest))
      (by intro c hc; simp at hc; subst hc; decide) hrest'
    simp only [List.cons_append, List.nil_append] at h1
    simp only [parseMembers, renderMember, renderStr, List.cons_append,
      List.append_assoc, List.nil_append, List.singleton_append, skipWs_append_ws hw]
    rw [skipWs_cons_not_ws (by decide)]
    cases ms with
    | nil =>
        simp only [renderMembersTail, List.nil_append] at h1 ⊢
        simp [parseStringBody_escape, skipWs_colon, h1, skipWs_rbrace]
    | cons m2 ms2 =>
        obtain ⟨k2, v2⟩ := m2
        have hsy : memsNeed ((k2, v2) :: ms2) < n := by
          simp only [memsNeed] at hmn ⊢
          omega
        have hfy : memsNeed ((k2, v2) :: ms2) ≤ f := by
          simp only [memsNeed] at hmf ⊢
          omega
        have h3 := (ih (memsNeed ((k2, v2) :: ms2)) hsy).2.2 k2 v2 ms2 le_rfl f hfy [' '] rest
          (by intro c hc; simp at hc; subst hc; decide)
        simp only [List.cons_append, List.nil_append, List.append_assoc] at h3
        simp only [renderMembersTail, List.cons_append, List.append_assoc] at h1 ⊢
        simp [parseStringBody_escape, skipWs_colon, h1, skipWs_comma, h3]

/-- Rendering a value is at least as long as the fuel its parse needs, so the
`s.length + 1` fuel of `jsonLoads` always suffices. -/
theorem render_length_aux : ∀ n : Nat,
    (∀ j : JsonVal, sizeJ j ≤ n → sizeJ j ≤ (render j).length)
  ∧ (∀ xs : List JsonVal, elemsNeed xs ≤ n → elemsNeed xs ≤ (renderElemsTail xs).length)
  ∧ (∀ ms : List (Str × JsonVal), memsNeed ms ≤ n →
      memsNeed ms ≤ (renderMembersTail ms).length) := by
  intro n
  induction n using Nat.strong_induction_on with
  | _ n ih =>
  refine ⟨?_, ?_, ?_⟩
  · intro j hj
    cases j with
    | null => simp [sizeJ, render, toL]
    | bool b => cases b <;> simp [sizeJ, render, toL]
    | num i =>
        rcases lt_or_le i 0 with hi | hi
        · obtain ⟨c, t, hct, _⟩ := natDigits_cons (-i).toNat
          simp [sizeJ, render, renderInt, hi, hct]
        · obtain ⟨c, t, hct, _⟩ := natDigits_cons i.toNat
          simp [sizeJ, render, renderInt, not_lt.2 hi, hct]
    | str s => simp [sizeJ, render, renderStr]
    | arr xs =>
        cases xs with
        | nil => simp [sizeJ, elemsNeed, render, toL]
        | cons x xs =>
            have hx : sizeJ x < n := by
              have h1 := sizeJ_pos x
              simp only [sizeJ, elemsNeed] at hj
              omega
            have hxs : elemsNeed xs < n := by
              have h1 := sizeJ_pos x
              simp only [sizeJ, elemsNeed] at hj
              omega
            have i1 := (ih (sizeJ x) hx).1 x le_rfl
            have i2 := (ih (elemsNeed xs) hxs).2.1 xs le_rfl
            simp only [sizeJ, elemsNeed, render, List.length_cons, List.length_append,
              List.length_singleton]
            omega
    | obj ms =>
        cases ms with
        | nil => simp [sizeJ, memsNeed, render, toL]
        | cons m ms =>
            obtain ⟨k, v⟩ := m
            have hv : sizeJ v < n := by
              have h1 := sizeJ_pos v
              simp only [sizeJ, memsNeed] at hj
              omega
            have hms : memsNeed ms < n := by
              have h1 := sizeJ_pos v
              simp only [sizeJ, memsNeed] at hj
              omega
            have i1 := (ih (sizeJ v) hv).1 v le_rfl
            have i2 := (ih (memsNeed ms) hms).2.2 ms le_rfl
            simp only [sizeJ, memsNeed, render, renderMember, renderStr, List.length_cons,
              List.length_append, List.length_singleton]
            omega
  · intro xs hxs
    cases xs with
    | nil => simp [elemsNeed, renderElemsTail]
    | cons y ys =>
        have hy : sizeJ y < n := by
          have h1 := sizeJ_pos y
          simp only [elemsNeed] at hxs
          omega
        have hys : elemsNeed ys < n := by
          have h1 := sizeJ_pos y
          simp only [elemsNeed] at hxs
          omega
        have i1 := (ih (sizeJ y) hy).1 y le_rfl
        have i2 := (ih (elemsNeed ys) hys).2.1 ys le_rfl
        simp only [elemsNeed, renderElemsTail, List.length_cons, List.length_append]
        omega
  · intro ms hms
    cases ms with
    | nil => simp [memsNeed, renderMembersTail]
    | cons m ms =>
        obtain ⟨k, v⟩ := m
        have hv : sizeJ v < n := by
          have h1 := sizeJ_pos v
          simp only [memsNeed] at hms
          omega
        have hms2 : memsNeed ms < n := by
          have h1 := sizeJ_pos v
          simp only [memsNeed] at hms
          omega
        have i1 := (ih (sizeJ v) hv).1 v le_rfl
        have i2 := (ih (memsNeed ms) hms2).2.2 ms le_rfl
        simp only [memsNeed, renderMembersTail, renderMember, renderStr, List.length_cons,
          List.length_append, List.length_singleton]
        omega

/-- `json.loads` inverts `json.dumps` on the modeled fragment. -/
theorem jsonLoads_render (j : JsonVal) : jsonLoads (render j) = some j := by
  have hs : sizeJ j ≤ (render j).length := (render_length_aux (sizeJ j)).1 j le_rfl
  have h := (parse_render_aux (sizeJ j)).1 j le_rfl ((render j).length + 1) (by omega) [] []
    (by intro c hc; simp at hc) (by decide)
  simp only [List.nil_append, List.append_nil] at h
  unfold jsonLoads
  rw [h]
  simp [skipWs]

theorem wsAll_reverse {w : Str} (h : wsAll w) : wsAll w.reverse := by
  intro c hc
  exact h c (List.mem_reverse.1 hc)

/-- `str.strip` removes exactly the whitespace wrapped around a string whose
two ends are not whitespace. -/
theorem pyStrip_sandwich (a b s : Str) (ha : wsAll a) (hb : wsAll b)
    (h1 : ∃ c t, s = c :: t ∧ isPyWs c = false)
    (h2 : ∃ d u, s.reverse = d :: u ∧ isPyWs d = false) :
    pyStrip (a ++ (s ++ b)) = s := by
  obtain ⟨c, t, hs, hc⟩ := h1
  obtain ⟨d, u, hr, hd⟩ := h2
  have e1 : skipWs (a ++ (s ++ b)) = s ++ b := by
    rw [skipWs_append_ws ha, hs, List.cons_append, skipWs_cons_not_ws hc, ← List.cons_append,
      ← hs]
  have e2 : (s ++ b).reverse = b.reverse ++ s.reverse := by simp
  have e3 : skipWs ((s ++ b).reverse) = s.reverse := by
    rw [e2, skipWs_append_ws (wsAll_reverse hb), hr, skipWs_cons_not_ws hd, ← hr]
  show ((skipWs (a ++ (s ++ b))).reverse.dropWhile fun c => isPyWs c).reverse = s
  rw [e1]
  show ((skipWs ((s ++ b).reverse))).reverse = s
  rw [e3, List.reverse_reverse]

/-- The fence-stripping regex leaves a bare JSON-object serialization alone:
it neither starts with a backtick nor ends with one. -/
theorem stripFence_id (s : Str) (h1 : ∃ t, s = '\x7b' :: t)
    (h2 : ∃ u, s.reverse = '\x7d' :: u) : stripFence s = s := by
  obtain ⟨t, ht⟩ := h1
  obtain ⟨u, hu⟩ := h2
  have e1 : stripPrefixL (toL "```json") s = none := by
    rw [show toL "```json" = '`' :: toL "``json" from rfl, ht]
    exact stripPrefixL_ne (by decide) _ _
  have e2 : stripPrefixL (toL "```") s.reverse = none := by
    rw [show toL "```" = '`' :: toL "``" from rfl, hu]
    exact stripPrefixL_ne (by decide) _ _
  simp [stripFence, e1, e2]

/-- The fence-stripping regex removes a code-fence wrapper: the leading
` ```json ` marker with the whitespace after it and the trailing ` ``` `
marker with the whitespace before it. -/
theorem stripFence_wrap (w1 w2 body : Str) (h1 : wsAll w1) (h2 : wsAll w2)
    (hb : ∃ t, body = '\x7b' :: t) (he : ∃ u, body.reverse = '\x7d' :: u) :
    stripFence (toL "```json" ++ (w1 ++ (body ++ (w2 ++ toL "```")))) = body := by
  obtain ⟨t, ht⟩ := hb
  obtain ⟨u, hu⟩ := he
  have e1 : stripPrefixL (toL "```json") (toL "```json" ++ (w1 ++ (body ++ (w2 ++ toL "```"))))
      = some (w1 ++ (body ++ (w2 ++ toL "```"))) := stripPrefixL_append _ _
  have e2 : skipWs (w1 ++ (body ++ (w2 ++ toL "```"))) = body ++ (w2 ++ toL "```") := by
    rw [skipWs_append_ws h1, ht, List.cons_append, skipWs_cons_not_ws (by decide),
      ← List.cons_append, ← ht]
  have e3 : (body ++ (w2 ++ toL "```")).reverse
      = toL "```" ++ (w2.reverse ++ body.reverse) := by
    simp [List.reverse_append]
    rfl
  have e4 : stripPrefixL (toL "```") ((body ++ (w2 ++ toL "```")).reverse)
      = some (w2.reverse ++ body.reverse) := by
    rw [e3]
    exact stripPrefixL_append _ _
  have e5 : skipWs (w2.reverse ++ body.reverse) = body.reverse := by
    rw [skipWs_append_ws (wsAll_reverse h2), hu, skipWs_cons_not_ws (by decide), ← hu]
  simp only [stripFence, e1]
  rw [show List.dropWhile (fun c => isPyWs c) (w1 ++ (body ++ (w2 ++ toL "```")))
      = body ++ (w2 ++ toL "```") from e2]
  rw [e4]
  show ((w2.reverse ++ body.reverse).dropWhile fun c => isPyWs c).reverse = body
  rw [show List.dropWhile (fun c => isPyWs c) (w2.reverse ++ body.reverse)
      = body.reverse from e5]
  exact List.reverse_reverse body

theorem render_obj_head (ms : List (Str × JsonVal)) :
    ∃ t, render (.obj ms) = '\x7b' :: t := by
  cases ms with
  | nil => exact ⟨['\x7d'], rfl⟩
  | cons m ms => exact ⟨_, rfl⟩

theorem render_obj_last (ms : List (Str × JsonVal)) :
    ∃ u, (render (.obj ms)).reverse = '\x7d' :: u := by
  cases ms with
  | nil => exact ⟨['\x7b'], rfl⟩
  | cons m ms =>
      have h : render (.obj (m :: ms))
          = ('\x7b' :: (renderMember m ++ renderMembersTail ms)) ++ ['\x7d'] := rfl
      refine ⟨('\x7b' :: (renderMember m ++ renderMembersTail ms)).reverse, ?_⟩
      rw [h, List.reverse_append]
      rfl

theorem backtick_tail_reverse (z : Str) :
    (z ++ toL "```").reverse = '`' :: ('`' :: ('`' :: z.reverse)) := by
  rw [List.reverse_append]
  rfl

/-- C1: for every well-formed JSON object serialized as text, with or without a
code-fence wrapper, and with arbitrary whitespace around the payload, the
fence-stripping step of `generate_visualization` (strip whitespace, remove a
leading ```json marker and a trailing ``` marker) followed by JSON-parsing
recovers an object identical to the original. -/
theorem C1_fence_strip_parse_roundtrip (ms : List (Str × JsonVal)) (wa wb w1 w2 : Str)
    (ha : wsAll wa) (hb : wsAll wb) (h1 : wsAll w1) (h2 : wsAll w2) :
    jsonLoads (stripFence (pyStrip (wa ++ (render (.obj ms) ++ wb)))) = some (.obj ms)
  ∧ jsonLoads (stripFence (pyStrip (wa ++ ((toL "```json" ++ (w1 ++ (render (.obj ms)
      ++ (w2 ++ toL "```")))) ++ wb)))) = some (.obj ms) := by
  obtain ⟨th, hth⟩ := render_obj_head ms
  obtain ⟨tu, htu⟩ := render_obj_last ms
  constructor
  · rw [pyStrip_sandwich wa wb _ ha hb ⟨'\x7b', th, hth, by decide⟩
      ⟨'\x7d', tu, htu, by decide⟩]
    rw [stripFence_id _ ⟨th, hth⟩ ⟨tu, htu⟩]
    exact jsonLoads_render _
  · have hassoc : toL "```json" ++ (w1 ++ (render (.obj ms) ++ (w2 ++ toL "```")))
        = (toL "```json" ++ (w1 ++ (render (.obj ms) ++ w2))) ++ toL "```" := by
      simp [List.append_assoc]
    have hrev := backtick_tail_reverse (toL "```json" ++ (w1 ++ (render (.obj ms) ++ w2)))
    rw [pyStrip_sandwich wa wb
      (toL "```json" ++ (w1 ++ (render (.obj ms) ++ (w2 ++ toL "```")))) ha hb
      ⟨'`', toL "``json" ++ (w1 ++ (render (.obj ms) ++ (w2 ++ toL "```"))), rfl, by decide⟩
      ⟨'`', '`' :: ('`' :: (toL "```json" ++ (w1 ++ (render (.obj ms) ++ w2))).reverse),
        by rw [hassoc]; exact hrev, by decide⟩]
    rw [stripFence_wrap w1 w2 _ h1 h2 ⟨th, hth⟩ ⟨tu, htu⟩]
    exact jsonLoads_render _

theorem C1_fence_strip_parse_roundtrip_witness :
    (jsonLoads (stripFence (pyStrip (toL " " ++ (render (.obj [(toL "a", .num 1)]) ++ toL "\n"))))
      = some (.obj [(toL "a", .num 1)]))
  ∧ (jsonLoads (stripFence (pyStrip (toL " " ++ ((toL "```json" ++ (toL "\n"
      ++ (render (.obj [(toL "a", .num 1)]) ++ (toL "\n" ++ toL "```")))) ++ toL "\n"))))
      = some (.obj [(toL "a", .num 1)])) :=
  C1_fence_strip_parse_roundtrip [(toL "a", .num 1)] (toL " ") (toL "\n") (toL "\n")
    (toL "\n") (by decide) (by decide) (by decide) (by decide)

/-! ## Embedding of the scripts as processes

Each script fragment is a value of `W α`: its result (`ok`, `sys.exit`, or a
propagating exception) together with the list of observable events it emits,
in order.  All environment and third-party behaviour (the `google.generativeai`
import, the API key, `model.generate_content`, pandas, matplotlib, base64) is
supplied by an oracle, so a run is a pure function of the oracle and the
arguments. -/

/-- The apostrophe character (U+0027). -/
def apos : Char := Char.ofNat 39

/-- Python exceptions as the scripts distinguish them.  Messages are carried
abstractly; `excMsg` is their `str()`. -/
inductive PyExc where
  | moduleNotFound
  | typeError (msg : Str)
  | keyError (key : Str)
  | jsonDecodeError (msg : Str)
  | other (msg : Str)

/-- `str(e)` of an exception, as the f-strings interpolate it (for `KeyError`
Python shows the quoted key; the quoting is immaterial to every claim and is
elided). -/
def excMsg : PyExc → Str
  | .moduleNotFound => toL "ModuleNotFoundError"
  | .typeError m => m
  | .keyError k => k
  | .jsonDecodeError m => m
  | .other m => m

/-- Observable events of a run, in order. -/
inductive Ev where
  | configure (key : Option Str)
  | genCall (prompt : Str)
  | errJson (v : JsonVal)
  | traceback (msg : Str)
  | outJson (v : JsonVal)
  | figOpen
  | figClose
  | renderChart (ct : Str) (labels : List JsonVal) (values : List JsonVal) (title : JsonVal)

/-- How a fragment of a script finishes: normally, via `sys.exit` (a
`SystemExit`, which is not an `Exception`), or with an `Exception`
propagating. -/
inductive Res (α : Type) where
  | ok (a : α)
  | exited (code : Nat)
  | exc (e : PyExc)

/-- A script fragment: its result and the events it emits. -/
structure W (α : Type) where
  res : Res α
  evs : List Ev

def wPure (a : α) : W α := ⟨.ok a, []⟩

/-- Sequencing: events accumulate; `sys.exit` and exceptions short-circuit. -/
def wBind (x : W α) (f : α → W β) : W β :=
  match x.res with
  | .ok a => ⟨(f a).res, x.evs ++ (f a).evs⟩
  | .exited n => ⟨.exited n, x.evs⟩
  | .exc e => ⟨.exc e, x.evs⟩

instance : Monad W where
  pure := wPure
  bind := wBind

def emit (e : Ev) : W Unit := ⟨.ok (), [e]⟩

def raiseE (e : PyExc) : W α := ⟨.exc e, []⟩

def sysExit (n : Nat) : W α := ⟨.exited n, []⟩

def liftE : Except PyExc α → W α
  | .ok a => wPure a
  | .error e => raiseE e

/-- `try ... except`: the handler receives a propagating exception and returns
`none` when its clause does not match (the exception continues to propagate).
A `SystemExit` raised by `sys.exit` passes through untouched: `except
Exception` does not catch it. -/
def tryE (x : W α) (h : PyExc → Option (W α)) : W α :=
  match x.res with
  | .exc e =>
      match h e with
      | some y => ⟨y.res, x.evs ++ y.evs⟩
      | none => ⟨.exc e, x.evs⟩
  | _ => x

/-- `not os.environ.get("GEMINI_API_KEY")`: unset or empty is falsy. -/
def keyMissing : Option Str → Bool
  | none => true
  | some k => k.isEmpty

def errKey : Str := toL "error"

def mkErr (msg : Str) : JsonVal := .obj [(errKey, .str msg)]

/-- `print(json.dumps(obj), file=sys.stderr)`: the serialized object goes to
the error stream. -/
def printErrJson (v : JsonVal) : W Unit := emit (.errJson v)

/-- `print(json.dumps(obj, file=sys.stderr))` — the parenthesization most error
paths of `gemini_viz.py` use: the `file` keyword argument is passed to
`json.dumps` itself, which rejects unknown keyword arguments, so the call
raises a `TypeError` before anything is printed. -/
def printDumpsFileKw (_v : JsonVal) : W Unit :=
  raiseE (.typeError (toL "JSONEncoder got an unexpected keyword argument file"))

/-- `d[k]` on a parsed JSON value: the value (`dict`s from `json.loads` keep
the last duplicate), a `KeyError` when the key is absent, a `TypeError` when a
non-object is subscripted with a string. -/
def getItem : JsonVal → Str → Except PyExc JsonVal
  | .obj ms, k =>
      match lookupLast ms k with
      | some v => .ok v
      | none => .error (.keyError k)
  | _, _ => .error (.typeError (toL "value is not subscriptable by str"))
where
  lookupLast : List (Str × JsonVal) → Str → Option JsonVal
    | [], _ => none
    | (k2, v) :: ms, k =>
        match lookupLast ms k with
        | some r => some r
        | none => if k2 = k then some v else none

/-- Python `str()` of a parsed JSON value, as an f-string interpolates it: a
string is its own text; for other values no claim depends on the exact text
(Python `repr` of dicts and lists quotes differently) and the JSON rendering
stands in. -/
def pyStr : JsonVal → Str
  | .str s => s
  | v => render v

/-- `for dp in x`: lists iterate their elements, strings their characters,
dicts their keys; other values raise a `TypeError`. -/
def pyIter : JsonVal → Except PyExc (List JsonVal)
  | .arr xs => .ok xs
  | .str s => .ok (s.map fun c => .str [c])
  | .obj ms => .ok (ms.map fun m => .str m.1)
  | _ => .error (.typeError (toL "object is not iterable"))

/-- The list comprehension `[dp[k] for dp in dps]`. -/
def mapGetItem : List JsonVal → Str → Except PyExc (List JsonVal)
  | [], _ => .ok []
  | dp :: dps, k =>
      match getItem dp k with
      | .error e => .error e
      | .ok v =>
          match mapGetItem dps k with
          | .error e => .error e
          | .ok vs => .ok (v :: vs)

/-- Python `==` between a parsed JSON value and a string: equal exactly when
the value is that string (a non-string value never equals a `str`). -/
def jeqStr (v : JsonVal) (s : Str) : Bool :=
  match v with
  | .str t => t == s
  | _ => false

/-- The message of a `json.JSONDecodeError` (its text is immaterial to every
claim). -/
def jsonDecodeMsg : Str := toL "Expecting value"

/-- The environment and third-party behaviour one run of `gemini_viz.py`
observes. -/
structure VizOracle where
  genaiAvailable : Bool
  key : Option Str
  model : Str → Except PyExc Str
  csvDescribe : Except PyExc Str
  renderExc : Option PyExc
  imageB64 : Str

/-- The `meta_prompt_system` literal of `gemini_viz.py`. -/
def meta_prompt_system : Str :=
  toL "\n      You are a meta-prompt generator.\n      Your job is to analyze input text/data and decide:\n      1. The best chart type to visualize it (bar, pie, or line).\n      2. A concise (<=50 words) optimized summarization prompt.\n      Respond in this JSON format:\n      \x7b\n        \"chart_type_suggestion\": \"<bar|pie|line>\",\n        \"optimized_prompt\": \"<prompt text>\"\n      \x7d\n    "

/-- The `data_extraction_system` literal of `gemini_viz.py`. -/
def data_extraction_system : Str :=
  toL "\n      You are a summarization model that outputs JSON for chart visualization.\n      You will receive a user prompt (guiding instruction) and a long text/data.\n      Return data in this exact structure:\n      \x7b\n        \"title\": \"<short summary title>\",\n        \"data_points\": [\n          \x7b\"label\": \"<category/topic>\", \"value\": <number>, \"summary\": \"<one-line summary>\"\x7d\n        ]\n      \x7d\n    "

/-- The stage-1 prompt: `meta_prompt_system + "\nTEXT: " + text_to_process`. -/
def stage1Prompt (text_to_process : Str) : Str :=
  meta_prompt_system ++ toL "\nTEXT: " ++ text_to_process

/-- The stage-2 prompt:
`data_extraction_system + f"\nPROMPT: {optimized_prompt}\nTEXT/DATA: {input_data}"`. -/
def stage2Prompt (optimized_prompt : JsonVal) (input_data : Str) : Str :=
  data_extraction_system ++ toL "\nPROMPT: " ++ pyStr optimized_prompt
    ++ toL "\nTEXT/DATA: " ++ input_data

/-- The drawing calls of the selected chart branch (`sns.barplot` / `plt.pie` /
`sns.lineplot` plus titles and axis labels) together with `tight_layout` and
`savefig`: the oracle decides whether any of them raises. -/
def renderCall (O : VizOracle) (ct : Str) (labels values : List JsonVal)
    (title : JsonVal) : W Unit :=
  match O.renderExc with
  | some e => raiseE e
  | none => emit (.renderChart ct labels values title)

/-- `import google.generativeai as genai`: raises `ModuleNotFoundError` when
the package is absent. -/
def importGenai (avail : Bool) : W Unit :=
  if avail then pure () else raiseE .moduleNotFound

/-- The credential check of `gemini_viz.py` (lines 17-19): note that its error
print passes `file=sys.stderr` to `json.dumps`, so a missing key raises a
`TypeError` instead of printing. -/
def vizKeyCheck (key : Option Str) : W Unit :=
  if keyMissing key then do
    printDumpsFileKw (mkErr (toL "GEMINI_API_KEY environment variable not set."))
    sysExit 1
  else pure ()

/-- The import/configure/credential-check `try` of `gemini_viz.py`
(lines 14-25), with its `except ModuleNotFoundError` handler (whose print has
the same `file=sys.stderr`-inside-`json.dumps` slip). -/
def vizSetup (O : VizOracle) : W Unit :=
  tryE
    (do
      importGenai O.genaiAvailable
      emit (.configure O.key)
      vizKeyCheck O.key)
    (fun e => match e with
      | .moduleNotFound => some (do
          printDumpsFileKw (mkErr (toL "Gemini module not found. Skipping AI generation."))
          sysExit 1)
      | _ => none)

/-- The CSV branch (lines 28-37): on `--csv` the text to process becomes the
pandas-derived description, and a CSV parse failure is fatal. -/
def vizText (O : VizOracle) (input_data : Str) (is_csv : Bool) : W Str :=
  if is_csv then
    tryE (liftE O.csvDescribe)
      (fun e => some (do
        printDumpsFileKw (mkErr (toL "Failed to read CSV data: " ++ excMsg e))
        sysExit 1))
  else pure input_data

/-- Stage 1 of `gemini_viz.py` (lines 39-65): the meta-prompt call, fence
stripping, JSON parse and key extraction, with the `except json.JSONDecodeError`
and `except Exception` handlers written out branch by branch.  When
`generate_content` itself raises, `raw_meta_output` is still `""`. -/
def vizStage1 (O : VizOracle) (text_to_process : Str) : W (JsonVal × JsonVal) := do
  emit (.genCall (stage1Prompt text_to_process))
  match O.model (stage1Prompt text_to_process) with
  | .error e =>
      (match e with
       | .jsonDecodeError m => do
           printErrJson (.obj [(errKey,
             .str (toL "Failed to parse meta-prompt JSON from Gemini: " ++ m)),
             (toL "raw_output", .str [])])
           sysExit 1
       | _ => do
           printDumpsFileKw (mkErr (toL "Failed to generate meta-prompt: " ++ excMsg e))
           sysExit 1)
  | .ok t =>
      let raw := pyStrip t
      match jsonLoads (stripFence (pyStrip raw)) with
      | none => do
          printErrJson (.obj [(errKey,
            .str (toL "Failed to parse meta-prompt JSON from Gemini: " ++ jsonDecodeMsg)),
            (toL "raw_output", .str raw)])
          sysExit 1
      | some meta =>
          match getItem meta (toL "chart_type_suggestion") with
          | .error e => do
              printDumpsFileKw (mkErr (toL "Failed to generate meta-prompt: " ++ excMsg e))
              sysExit 1
          | .ok chart_type =>
              match getItem meta (toL "optimized_prompt") with
              | .error e => do
                  printDumpsFileKw
                    (mkErr (toL "Failed to generate meta-prompt: " ++ excMsg e))
                  sysExit 1
              | .ok optimized_prompt => pure (chart_type, optimized_prompt)

/-- Stage 2 of `gemini_viz.py` (lines 67-92): the data-extraction call and its
JSON recovery, handlers as in stage 1. -/
def vizStage2 (O : VizOracle) (optimized_prompt : JsonVal) (input_data : Str) :
    W JsonVal := do
  emit (.genCall (stage2Prompt optimized_prompt input_data))
  match O.model (stage2Prompt optimized_prompt input_data) with
  | .error e =>
      (match e with
       | .jsonDecodeError m => do
           printErrJson (.obj [(errKey,
             .str (toL "Failed to parse chart data JSON from Gemini: " ++ m)),
             (toL "raw_output", .str [])])
           sysExit 1
       | _ => do
           printDumpsFileKw (mkErr (toL "Failed to extract chart data: " ++ excMsg e))
           sysExit 1)
  | .ok t =>
      let raw := pyStrip t
      match jsonLoads (stripFence (pyStrip raw)) with
      | none => do
          printErrJson (.obj [(errKey,
            .str (toL "Failed to parse chart data JSON from Gemini: " ++ jsonDecodeMsg)),
            (toL "raw_output", .str raw)])
          sysExit 1
      | some cd => pure cd

/-- The comprehension `[dp[k] for dp in chart_data["data_points"]]`. -/
def extractList (chart_data : JsonVal) (k : Str) : Except PyExc (List JsonVal) :=
  match getItem chart_data (toL "data_points") with
  | .error e => .error e
  | .ok dpv =>
      match pyIter dpv with
      | .error e => .error e
      | .ok dps => mapGetItem dps k

/-- The chart-type dispatch of stage 3 (lines 100-116): one of the three
drawing branches, or the unsupported-type branch, whose
`print(json.dumps(..., file=sys.stderr))` raises a `TypeError` (caught by the
enclosing `except Exception`), so its `sys.exit(1)` is never reached. -/
def vizChartBranch (O : VizOracle) (ct : JsonVal) (labels values : List JsonVal)
    (title : JsonVal) : W Unit :=
  if jeqStr ct (toL "bar") then
    renderCall O (toL "bar") labels values title
  else if jeqStr ct (toL "pie") then
    renderCall O (toL "pie") labels values title
  else if jeqStr ct (toL "line") then
    renderCall O (toL "line") labels values title
  else do
    printDumpsFileKw (mkErr (toL "Unsupported chart type: " ++ pyStr ct))
    sysExit 1

/-- Stage 3 of `gemini_viz.py` (lines 94-130): open the figure, extract
labels/values/title, draw, save and close; on any exception in the `try`, the
handler closes the figure and then its own error print raises. -/
def vizStage3 (O : VizOracle) (ct : JsonVal) (chart_data : JsonVal) : W JsonVal := do
  emit .figOpen
  tryE
    (do
      let labels ← liftE (extractList chart_data (toL "label"))
      let values ← liftE (extractList chart_data (toL "value"))
      let title ← liftE (getItem chart_data (toL "title"))
      let _ ← vizChartBranch O ct labels values title
      emit .figClose
      pure (.obj [(toL "image", .str O.imageB64), (toL "title", title)]))
    (fun e => some (do
      emit .figClose
      printDumpsFileKw (mkErr (toL "Failed to render chart: " ++ excMsg e))
      sysExit 1))

/-- Embedding of `generate_visualization(input_data, is_csv)` of
`Nano-Q/gemini_viz.py`: the source blocks in order. -/
def generate_visualization (O : VizOracle) (input_data : Str) (is_csv : Bool) :
    W JsonVal := do
  vizSetup O
  let text_to_process ← vizText O input_data is_csv
  let stage1 ← vizStage1 O text_to_process
  let chart_data ← vizStage2 O stage1.2 input_data
  vizStage3 O stage1.1 chart_data

/-- Process end: a returned result is printed to stdout by `__main__` and the
process exits 0; `sys.exit(n)` exits with `n`; an uncaught exception makes the
interpreter print a traceback on stderr and exit 1. -/
def runProcess (x : W JsonVal) : List Ev × Nat :=
  match x.res with
  | .ok v => (x.evs ++ [.outJson v], 0)
  | .exited n => (x.evs, n)
  | .exc e => (x.evs ++ [.traceback (excMsg e)], 1)

/-- `python gemini_viz.py input_data [--csv]`. -/
def mainViz (O : VizOracle) (input_data : Str) (is_csv : Bool) : List Ev × Nat :=
  runProcess (generate_visualization O input_data is_csv)

/-- The environment and third-party behaviour a QA run observes. -/
structure QaOracle where
  genaiAvailable : Bool
  key : Option Str
  model : Str → Except PyExc Str

/-- The `qa_prompt` f-string of `gemini_qa.py`, already interpolated. -/
def qaPrompt ( context_prefix input_data question : Str) : Str :=
  toL "\n          You are a helpful assistant. Answer the user" ++ [apos]
    ++ toL "s question based ONLY on the provided " ++ context_prefix
    ++ toL ". If the answer is not in the " ++ context_prefix
    ++ toL ", state that you don" ++ [apos] ++ toL "t know.\n\n          "
    ++ context_prefix ++ toL ": " ++ input_data
    ++ toL "\n          Question: " ++ question
    ++ toL "\n          Answer:\n          "

/-- The credential check of both QA scripts: here the error print passes
`file=sys.stderr` to `print` itself, so the JSON error object really reaches
the error stream. -/
def qaKeyCheck (key : Option Str) : W Unit :=
  if keyMissing key then do
    printErrJson (mkErr (toL "GEMINI_API_KEY environment variable not set."))
    sysExit 1
  else pure ()

/-- The inner `try` of `answer_question` in `gemini_qa.py` (lines 26-32): the
model call, answer stripping, and the generic handler printing
`{"error": str(e)}` and exiting. -/
def qaCall (O : QaOracle) (prompt : Str) : W JsonVal :=
  tryE
    (do
      emit (.genCall prompt)
      match O.model prompt with
      | .error e => raiseE e
      | .ok t => pure (.obj [(toL "answer", .str (pyStrip t))]))
    (fun e => some (do
      printErrJson (mkErr (excMsg e))
      sysExit 1))

/-- Embedding of `answer_question(input_data, question, is_csv)` of
`gemini_qa.py` (the repository-root script). -/
def answer_question (O : QaOracle) (input_data question : Str) (is_csv : Bool) :
    W JsonVal :=
  tryE
    (do
      importGenai O.genaiAvailable
      emit (.configure O.key)
      qaKeyCheck O.key
      qaCall O (qaPrompt (if is_csv then toL "CSV Data" else toL "Text")
        input_data question))
    (fun e => match e with
      | .moduleNotFound => some (do
          printErrJson (mkErr (toL "Gemini module not found. Skipping AI generation."))
          sysExit 1)
      | _ => none)

/-- `python gemini_qa.py input_data question [--csv]`. -/
def mainQa (O : QaOracle) (input_data question : Str) (is_csv : Bool) : List Ev × Nat :=
  runProcess (answer_question O input_data question is_csv)

/-- One named-argument lookup of `str.format`. -/
def fmtLookup (args : List (Str × Str)) (name : Str) : Except PyExc Str :=
  match args with
  | [] => .error (.keyError name)
  | (k, v) :: rest => if k = name then .ok v else fmtLookup rest name

mutual

/-- Python `str.format` over a template: literal text is copied; `\x7bname\x7d`
is replaced by the named argument, inserted verbatim and never rescanned;
`\x7b\x7b` and `\x7d\x7d` are brace escapes; a stray brace is a `ValueError`. -/
def pyFormat (args : List (Str × Str)) : Str → Except PyExc Str
  | [] => .ok []
  | '\x7b' :: '\x7b' :: t =>
      match pyFormat args t with
      | .error e => .error e
      | .ok r => .ok ('\x7b' :: r)
  | '\x7d' :: '\x7d' :: t =>
      match pyFormat args t with
      | .error e => .error e
      | .ok r => .ok ('\x7d' :: r)
  | '\x7b' :: t => pyFormatName args [] t
  | '\x7d' :: _ => .error (.other (toL "Single brace encountered in format string"))
  | c :: t =>
      match pyFormat args t with
      | .error e => .error e
      | .ok r => .ok (c :: r)

/-- Scanning a replacement-field name up to its closing brace. -/
def pyFormatName (args : List (Str × Str)) (acc : Str) : Str → Except PyExc Str
  | [] => .error (.other (toL "Single brace encountered in format string"))
  | '\x7d' :: t =>
      match fmtLookup args acc with
      | .error e => .error e
      | .ok v =>
          match pyFormat args t with
          | .error e => .error e
          | .ok r => .ok (v ++ r)
  | c :: t => pyFormatName args (acc ++ [c]) t

end

/-- The `qa_prompt` template literal of the website script
(`nano-summarizer-website/gemini_qa.py`), with its `\x7btext\x7d` and
`\x7bquestion\x7d` placeholders. -/
def web_qa_template : Str :=
  toL "\n      You are a helpful assistant. Answer the user" ++ [apos]
    ++ toL "s question based ONLY on the provided text. If the answer is not in the text, state that you don"
    ++ [apos] ++ toL "t know.\n\n      Text: \x7btext\x7d\n      Question: \x7bquestion\x7d\n      Answer:\n      "

/-- The `try` of the website `answer_question` (lines 23-29): the prompt is
built by `qa_prompt.format(text=text, question=question)` inside the `try`,
then the model is called and the stripped answer returned. -/
def webCall (O : QaOracle) (text question : Str) : W JsonVal :=
  tryE
    (do
      let fp ← liftE (pyFormat [(toL "text", text), (toL "question", question)]
        web_qa_template)
      emit (.genCall fp)
      match O.model fp with
      | .error e => raiseE e
      | .ok t => pure (.obj [(toL "answer", .str (pyStrip t))]))
    (fun e => some (do
      printErrJson (mkErr (excMsg e))
      sysExit 1))

/-- Embedding of `answer_question(text, question)` of
`nano-summarizer-website/gemini_qa.py`. -/
def answer_question_web (O : QaOracle) (text question : Str) : W JsonVal := do
  emit (.configure O.key)
  qaKeyCheck O.key
  webCall O text question

/-- `python gemini_qa.py text question` for the website script (both arguments
present); the module-level `import google.generativeai` runs before anything
else. -/
def mainWeb (O : QaOracle) (text question : Str) : List Ev × Nat :=
  runProcess (do
    importGenai O.genaiAvailable
    answer_question_web O text question)

/-- Events on standard output. -/
def isOut : Ev → Bool
  | .outJson _ => true
  | _ => false

/-- Events on standard error. -/
def isErr : Ev → Bool
  | .errJson _ => true
  | .traceback _ => true
  | _ => false

/-- Model calls. -/
def isGenCall : Ev → Bool
  | .genCall _ => true
  | _ => false

def stdoutEvents (tr : List Ev) : List Ev := tr.filter isOut

def stderrEvents (tr : List Ev) : List Ev := tr.filter isErr

def genCalls (tr : List Ev) : List Ev := tr.filter isGenCall

def isFigOpen : Ev → Bool
  | .figOpen => true
  | _ => false

def isFigClose : Ev → Bool
  | .figClose => true
  | _ => false

/-- No stdout event is emitted by a fragment. -/
def noOut (x : W α) : Prop := stdoutEvents x.evs = []

theorem noOut_bind {α β : Type} {x : W α} {f : α → W β} (hx : noOut x)
    (hf : ∀ a, noOut (f a)) : noOut (x >>= f) := by
  show noOut (wBind x f)
  unfold noOut stdoutEvents wBind at *
  cases hr : x.res with
  | ok a => simp [List.filter_append, hx, hf a]
  | exited n => simpa using hx
  | exc e => simpa using hx

theorem noOut_tryE {α : Type} {x : W α} {h : PyExc → Option (W α)} (hx : noOut x)
    (hh : ∀ e y, h e = some y → noOut y) : noOut (tryE x h) := by
  unfold noOut stdoutEvents tryE at *
  cases hr : x.res with
  | exc e =>
      cases hy : h e with
      | none =>
          simp only [hy]
          simpa using hx
      | some y =>
          simp only [hy]
          simp [List.filter_append, hx, hh e y hy]
  | ok a => simpa using hx
  | exited n => simpa using hx

theorem noOut_importGenai (b : Bool) : noOut (importGenai b) := by
  unfold noOut stdoutEvents importGenai
  split <;> rfl

theorem noOut_vizSetup (O : VizOracle) : noOut (vizSetup O) := by
  unfold vizSetup
  apply noOut_tryE
  · apply noOut_bind (noOut_importGenai _)
    intro a
    apply noOut_bind (by rfl : noOut (emit (Ev.configure O.key)))
    intro b
    unfold noOut stdoutEvents vizKeyCheck
    split <;> rfl
  · intro e y hy
    cases e <;> simp at hy <;> subst hy <;> rfl

theorem noOut_vizText (O : VizOracle) (i : Str) (c : Bool) : noOut (vizText O i c) := by
  unfold vizText
  split
  · apply noOut_tryE
    · unfold noOut stdoutEvents liftE
      split <;> rfl
    · intro e y hy
      simp at hy
      subst hy
      rfl
  · rfl

theorem noOut_vizStage1 (O : VizOracle) (ttp : Str) : noOut (vizStage1 O ttp) := by
  unfold noOut stdoutEvents vizStage1
  simp only [bind, wBind, emit, wPure, pure, sysExit, raiseE, printErrJson,
    printDumpsFileKw, List.filter_append]
  (repeat' split) <;> rfl

theorem noOut_vizStage2 (O : VizOracle) (op : JsonVal) (i : Str) :
    noOut (vizStage2 O op i) := by
  unfold noOut stdoutEvents vizStage2
  simp only [bind, wBind, emit, wPure, pure, sysExit, raiseE, printErrJson,
    printDumpsFileKw, List.filter_append]
  (repeat' split) <;> rfl

theorem noOut_vizStage3 (O : VizOracle) (ct cd : JsonVal) : noOut (vizStage3 O ct cd) := by
  unfold vizStage3
  apply noOut_bind (by rfl : noOut (emit Ev.figOpen))
  intro a
  apply noOut_tryE
  · unfold noOut stdoutEvents vizChartBranch renderCall
    simp only [bind, wBind, emit, liftE, wPure, pure, sysExit, raiseE, printErrJson,
      printDumpsFileKw, List.filter_append]
    (repeat' split) <;> rfl
  · intro e y hy
    simp at hy
    subst hy
    rfl

/-- The visualization script itself never prints to standard output: every
print in `generate_visualization` targets `sys.stderr` (or raises first). -/
theorem viz_no_stdout (O : VizOracle) (i : Str) (c : Bool) :
    stdoutEvents (generate_visualization O i c).evs = [] := by
  have h : noOut (generate_visualization O i c) := by
    unfold generate_visualization
    apply noOut_bind (noOut_vizSetup O)
    intro a
    apply noOut_bind (noOut_vizText O i c)
    intro ttp
    apply noOut_bind (noOut_vizStage1 O ttp)
    intro s1
    apply noOut_bind (noOut_vizStage2 O s1.2 i)
    intro cd
    exact noOut_vizStage3 O s1.1 cd
  exact h

theorem noOut_qaKeyCheck (key : Option Str) : noOut (qaKeyCheck key) := by
  unfold noOut stdoutEvents qaKeyCheck
  simp only [bind, wBind, emit, wPure, pure, sysExit, printErrJson, List.filter_append]
  (repeat' split) <;> rfl

theorem noOut_qaCall (O : QaOracle) (p : Str) : noOut (qaCall O p) := by
  unfold qaCall
  apply noOut_tryE
  · unfold noOut stdoutEvents
    simp only [bind, wBind, emit, wPure, pure, raiseE, List.filter_append]
    (repeat' split) <;> rfl
  · intro e y hy
    simp at hy
    subst hy
    rfl

/-- `answer_question` of the root QA script never prints to standard output. -/
theorem qa_no_stdout (O : QaOracle) (i q : Str) (c : Bool) :
    stdoutEvents (answer_question O i q c).evs = [] := by
  have h : noOut (answer_question O i q c) := by
    unfold answer_question
    apply noOut_tryE
    · apply noOut_bind (noOut_importGenai _)
      intro a
      apply noOut_bind (by rfl : noOut (emit (Ev.configure O.key)))
      intro b
      apply noOut_bind (noOut_qaKeyCheck O.key)
      intro d
      exact noOut_qaCall O _
    · intro e y hy
      cases e <;> simp at hy <;> subst hy <;> rfl
  exact h

theorem noOut_webCall (O : QaOracle) (t q : Str) : noOut (webCall O t q) := by
  unfold webCall
  apply noOut_tryE
  · unfold noOut stdoutEvents liftE
    simp only [bind, wBind, emit, wPure, pure, raiseE, List.filter_append]
    (repeat' split) <;> rfl
  · intro e y hy
    simp at hy
    subst hy
    rfl

/-- The website `answer_question` never prints to standard output. -/
theorem web_no_stdout (O : QaOracle) (t q : Str) :
    stdoutEvents (answer_question_web O t q).evs = [] := by
  have h : noOut (answer_question_web O t q) := by
    unfold answer_question_web
    apply noOut_bind (by rfl : noOut (emit (Ev.configure O.key)))
    intro a
    apply noOut_bind (noOut_qaKeyCheck O.key)
    intro b
    exact noOut_webCall O t q
  exact h

/-- Count of events matching `p` in a fragment. -/
def evCount (p : Ev → Bool) (x : W α) : Nat := x.evs.countP p

theorem evCount_eq_bind {α β : Type} {x : W α} {f : α → W β} (p q : Ev → Bool)
    (hx : evCount p x = evCount q x) (hf : ∀ a, evCount p (f a) = evCount q (f a)) :
    evCount p (x >>= f) = evCount q (x >>= f) := by
  show evCount p (wBind x f) = evCount q (wBind x f)
  unfold evCount wBind at *
  cases hr : x.res with
  | ok a => simp [List.countP_append, hx, hf a]
  | exited n => simpa using hx
  | exc e => simpa using hx

theorem evCount_eq_tryE {α : Type} {x : W α} {h : PyExc → Option (W α)} (p q : Ev → Bool)
    (hx : evCount p x = evCount q x)
    (hh : ∀ e y, h e = some y → evCount p y = evCount q y) :
    evCount p (tryE x h) = evCount q (tryE x h) := by
  unfold evCount tryE at *
  cases hr : x.res with
  | exc e =>
      cases hy : h e with
      | none =>
          simp only [hy]
          simpa using hx
      | some y =>
          simp only [hy]
          simp [List.countP_append, hx, hh e y hy]
  | ok a => simpa using hx
  | exited n => simpa using hx

/-- A fragment opens as many figures as it closes. -/
def figBal (x : W α) : Prop := evCount isFigOpen x = evCount isFigClose x

theorem figBal_vizSetup (O : VizOracle) : figBal (vizSetup O) := by
  unfold vizSetup
  apply evCount_eq_tryE
  · unfold evCount importGenai vizKeyCheck
    simp only [bind, wBind, emit, wPure, pure, sysExit, raiseE, printErrJson,
      printDumpsFileKw, List.countP_append]
    (repeat' split) <;> rfl
  · intro e y hy
    cases e <;> simp at hy <;> subst hy <;> rfl

theorem figBal_vizText (O : VizOracle) (i : Str) (c : Bool) : figBal (vizText O i c) := by
  unfold vizText
  split
  · apply evCount_eq_tryE
    · unfold evCount liftE
      split <;> rfl
    · intro e y hy
      simp at hy
      subst hy
      rfl
  · rfl

theorem figBal_vizStage1 (O : VizOracle) (ttp : Str) : figBal (vizStage1 O ttp) := by
  unfold figBal evCount vizStage1
  simp only [bind, wBind, emit, wPure, pure, sysExit, raiseE, printErrJson,
    printDumpsFileKw, List.countP_append]
  (repeat' split) <;> rfl

theorem figBal_vizStage2 (O : VizOracle) (op : JsonVal) (i : Str) :
    figBal (vizStage2 O op i) := by
  unfold figBal evCount vizStage2
  simp only [bind, wBind, emit, wPure, pure, sysExit, raiseE, printErrJson,
    printDumpsFileKw, List.countP_append]
  (repeat' split) <;> rfl

/-- Stage 3 closes the figure it opens on every path: the success path closes
it before returning, and each failure path reaches the `except Exception`
handler (the unsupported-chart-type branch raises a `TypeError` from its own
misparenthesized print, which that handler catches), which closes it. -/
theorem figBal_vizStage3 (O : VizOracle) (ct cd : JsonVal) : figBal (vizStage3 O ct cd) := by
  unfold figBal evCount vizStage3 vizChartBranch renderCall
  rcases h1 : extractList cd (toL "label") with e1 | labels <;>
    rcases h2 : extractList cd (toL "value") with e2 | values <;>
      rcases h3 : getItem cd (toL "title") with e3 | title <;>
        rcases h4 : O.renderExc with _ | e4 <;>
          simp only [h1, h2, h3, h4, bind, wBind, emit, tryE, liftE, wPure, pure, sysExit,
            raiseE, printErrJson, printDumpsFileKw, List.countP_append] <;>
          (repeat' split) <;> first | rfl | simp_all

theorem figBal_viz (O : VizOracle) (i : Str) (c : Bool) :
    figBal (generate_visualization O i c) := by
  unfold generate_visualization
  apply evCount_eq_bind _ _ (figBal_vizSetup O)
  intro a
  apply evCount_eq_bind _ _ (figBal_vizText O i c)
  intro ttp
  apply evCount_eq_bind _ _ (figBal_vizStage1 O ttp)
  intro s1
  apply evCount_eq_bind _ _ (figBal_vizStage2 O s1.2 i)
  intro cd
  exact figBal_vizStage3 O s1.1 cd

/-- C2: in the chart renderer, the figure opened for rendering is closed on
every execution path — on the success path after the image is encoded, and on
every failure path, including the unsupported-chart-type branch (whose own
misparenthesized error print raises a `TypeError` that the `except Exception`
handler catches, closing the figure) and any rendering exception. -/
theorem C2_figure_closed_on_every_path (O : VizOracle) (i : Str) (c : Bool) :
    ((mainViz O i c).1.countP isFigOpen) = ((mainViz O i c).1.countP isFigClose) := by
  have h := figBal_viz O i c
  unfold figBal evCount at h
  unfold mainViz runProcess
  cases hr : (generate_visualization O i c).res <;>
    simp [hr, List.countP_append, h, isFigOpen, isFigClose]

/-- C8: on every failure path of either entry point nothing is written to
standard output: the single JSON result object appears on standard output
exactly when the run succeeds, and no partial result is emitted before an
error. -/
theorem C8_stdout_only_on_success (OV : VizOracle) (OQ : QaOracle) (i q : Str) (c : Bool) :
    (stdoutEvents (mainViz OV i c).1
      = (match (generate_visualization OV i c).res with
         | .ok v => [.outJson v]
         | _ => []))
  ∧ (stdoutEvents (mainQa OQ i q c).1
      = (match (answer_question OQ i q c).res with
         | .ok v => [.outJson v]
         | _ => [])) := by
  constructor
  · have h := viz_no_stdout OV i c
    unfold stdoutEvents at h ⊢
    unfold mainViz runProcess
    cases hr : (generate_visualization OV i c).res <;>
      simp [hr, List.filter_append, h, isOut]
  · have h := qa_no_stdout OQ i q c
    unfold stdoutEvents at h ⊢
    unfold mainQa runProcess
    cases hr : (answer_question OQ i q c).res <;>
      simp [hr, List.filter_append, h, isOut]

/-- C4: when the API-key environment variable is unset (or empty, which is
equally falsy), each entry point terminates with a non-zero code before any
`generate_content` call is issued. -/
theorem C4_credential_short_circuits (OV : VizOracle) (OQ : QaOracle) (i q : Str)
    (c : Bool) (hkv : keyMissing OV.key = true) (hkq : keyMissing OQ.key = true) :
    (genCalls (mainViz OV i c).1 = [] ∧ (mainViz OV i c).2 ≠ 0)
  ∧ (genCalls (mainQa OQ i q c).1 = [] ∧ (mainQa OQ i q c).2 ≠ 0)
  ∧ (genCalls (mainWeb OQ i q).1 = [] ∧ (mainWeb OQ i q).2 ≠ 0) := by
  refine ⟨?_, ?_, ?_⟩
  · cases hga : OV.genaiAvailable <;>
      simp [mainViz, runProcess, generate_visualization, vizSetup, vizText, importGenai,
        vizKeyCheck, hkv, hga, genCalls, isGenCall, bind, wBind, emit, tryE, wPure, pure,
        sysExit, raiseE, printErrJson, printDumpsFileKw, List.filter_append]
  · cases hga : OQ.genaiAvailable <;>
      simp [mainQa, runProcess, answer_question, importGenai, qaKeyCheck, qaCall, hkq,
        hga, genCalls, isGenCall, bind, wBind, emit, tryE, wPure, pure, sysExit, raiseE,
        printErrJson, List.filter_append]
  · cases hga : OQ.genaiAvailable <;>
      simp [mainWeb, runProcess, answer_question_web, importGenai, qaKeyCheck, webCall,
        hkq, hga, genCalls, isGenCall, bind, wBind, emit, tryE, wPure, pure, sysExit,
        raiseE, printErrJson, List.filter_append]

/-- A visualization oracle with the credential unset (behaviour of the other
components is immaterial on that path). -/
def OVnokey : VizOracle :=
  { genaiAvailable := true
    key := none
    model := fun _ => .ok []
    csvDescribe := .ok []
    renderExc := none
    imageB64 := [] }

/-- A QA oracle with the credential unset. -/
def OQnokey : QaOracle :=
  { genaiAvailable := true
    key := none
    model := fun _ => .ok [] }

theorem C4_credential_short_circuits_witness :
    ((genCalls (mainViz OVnokey (toL "d") false).1 = []
        ∧ (mainViz OVnokey (toL "d") false).2 ≠ 0)
  ∧ (genCalls (mainQa OQnokey (toL "d") (toL "q") false).1 = []
        ∧ (mainQa OQnokey (toL "d") (toL "q") false).2 ≠ 0)
  ∧ (genCalls (mainWeb OQnokey (toL "d") (toL "q")).1 = []
        ∧ (mainWeb OQnokey (toL "d") (toL "q")).2 ≠ 0)) :=
  C4_credential_short_circuits OVnokey OQnokey (toL "d") (toL "q") false rfl rfl

/-- C3 (the code as written): a missing credential in `gemini_viz.py` does NOT
put a JSON error object on standard error.  Its error print passes
`file=sys.stderr` to `json.dumps`, which rejects the keyword, so the run dies
with an uncaught `TypeError`: the interpreter prints a traceback (not JSON) to
stderr and exits 1.  The same misparenthesization sits on the
module-not-found, CSV-error, stage-1/stage-2 generic, unsupported-chart-type
and render-error prints; only the two `JSONDecodeError` prints are correct. -/
theorem C3_missing_credential_no_json_error :
    (mainViz OVnokey (toL "d") false).2 = 1
  ∧ (∀ v, Ev.errJson v ∉ (mainViz OVnokey (toL "d") false).1)
  ∧ (mainViz OVnokey (toL "d") false).1
      = [.configure none,
         .traceback (toL "JSONEncoder got an unexpected keyword argument file")] := by
  refine ⟨rfl, ?_, rfl⟩
  intro v hv
  rw [show (mainViz OVnokey (toL "d") false).1
      = [.configure none,
         .traceback (toL "JSONEncoder got an unexpected keyword argument file")]
    from rfl] at hv
  simp at hv

/-- C9: every successful QA run writes exactly one JSON object to standard
output, whose "answer" field is the model response text stripped of leading
and trailing whitespace and nothing else changed — for the repository-root QA
script and the website QA script alike. -/
theorem C9_qa_answer_is_stripped_model_text (OQ : QaOracle) (i q t fp u : Str) (c : Bool)
    (hga : OQ.genaiAvailable = true) (hk : keyMissing OQ.key = false)
    (hm : OQ.model (qaPrompt (if c then toL "CSV Data" else toL "Text") i q) = .ok t)
    (hf : pyFormat [(toL "text", i), (toL "question", q)] web_qa_template = .ok fp)
    (hm2 : OQ.model fp = .ok u) :
    ((mainQa OQ i q c).2 = 0
      ∧ stdoutEvents (mainQa OQ i q c).1
          = [.outJson (.obj [(toL "answer", .str (pyStrip t))])])
  ∧ ((mainWeb OQ i q).2 = 0
      ∧ stdoutEvents (mainWeb OQ i q).1
          = [.outJson (.obj [(toL "answer", .str (pyStrip u))])]) := by
  constructor
  · constructor <;>
      simp [mainQa, runProcess, answer_question, importGenai, qaKeyCheck, qaCall, hga, hk,
        hm, stdoutEvents, isOut, bind, wBind, emit, tryE, wPure, pure, sysExit, raiseE,
        printErrJson, List.filter_append]
  · constructor <;>
      simp [mainWeb, runProcess, answer_question_web, importGenai, qaKeyCheck, webCall,
        hga, hk, hf, hm2, stdoutEvents, isOut, bind, wBind, emit, tryE, liftE, wPure,
        pure, sysExit, raiseE, printErrJson, List.filter_append]

/-- A QA oracle with a valid key whose model always answers `" out \n"`. -/
def OQok : QaOracle :=
  { genaiAvailable := true
    key := some (toL "k")
    model := fun _ => .ok (toL " out \n") }

set_option maxRecDepth 8000 in
theorem C9_qa_answer_is_stripped_model_text_witness :
    (((mainQa OQok (toL "d") (toL "q") false).2 = 0
      ∧ stdoutEvents (mainQa OQok (toL "d") (toL "q") false).1
          = [.outJson (.obj [(toL "answer", .str (pyStrip (toL " out \n")))])])
  ∧ ((mainWeb OQok (toL "d") (toL "q")).2 = 0
      ∧ stdoutEvents (mainWeb OQok (toL "d") (toL "q")).1
          = [.outJson (.obj [(toL "answer", .str (pyStrip (toL " out \n")))])])) :=
  C9_qa_answer_is_stripped_model_text OQok (toL "d") (toL "q") (toL " out \n") _
    (toL " out \n") false rfl rfl rfl rfl rfl

/-- The text of the website template before the `\x7btext\x7d` field. -/
def webPre : Str :=
  toL "\n      You are a helpful assistant. Answer the user" ++ [apos]
    ++ toL "s question based ONLY on the provided text. If the answer is not in the text, state that you don"
    ++ [apos] ++ toL "t know.\n\n      Text: "

/-- The template text between the two fields. -/
def webMid : Str := toL "\n      Question: "

/-- The template text after the `\x7bquestion\x7d` field. -/
def webPost : Str := toL "\n      Answer:\n      "

set_option maxRecDepth 4000 in
/-- C10 (as amended): the website prompt is built with `str.format` over a
template containing `\x7btext\x7d` and `\x7bquestion\x7d` placeholders, and
`str.format` substitutes the arguments verbatim without rescanning them, so a
brace character in the input text or question never makes prompt construction
raise: for every text and question the format succeeds and yields the template
with the two arguments spliced in. -/
theorem C10_format_never_raises (text question : Str) :
    pyFormat [(toL "text", text), (toL "question", question)] web_qa_template
      = .ok (webPre ++ (text ++ (webMid ++ (question ++ webPost)))) := by
  rfl

/-- A QA oracle with a valid key for the brace run. -/
def OQbrace : QaOracle :=
  { genaiAvailable := true
    key := some (toL "k")
    model := fun _ => .ok (toL "ans") }

set_option maxRecDepth 4000 in
/-- C10, counterexample to the claim as stated: with a valid credential and a
text argument that is a single literal brace, prompt construction does not
raise — the run issues the model call and exits 0 with the answer on stdout,
rather than failing before any model call. -/
theorem C10_braces_do_not_fail_counterexample :
    (mainWeb OQbrace (toL "\x7b") (toL "q")).2 = 0
  ∧ genCalls (mainWeb OQbrace (toL "\x7b") (toL "q")).1
      = [.genCall (webPre ++ (toL "\x7b" ++ (webMid ++ (toL "q" ++ webPost))))]
  ∧ stdoutEvents (mainWeb OQbrace (toL "\x7b") (toL "q")).1
      = [.outJson (.obj [(toL "answer", .str (toL "ans"))])] := by
  refine ⟨rfl, ?_, ?_⟩ <;> rfl

theorem bind_res_ok {α β : Type} {x : W α} {f : α → W β} {b : β}
    (h : (x >>= f).res = .ok b) :
    ∃ a, x.res = .ok a ∧ (f a).res = .ok b := by
  have h' : (wBind x f).res = .ok b := h
  cases hr : x.res with
  | ok a =>
      refine ⟨a, rfl, ?_⟩
      unfold wBind at h'
      rw [hr] at h'
      exact h'
  | exited n =>
      unfold wBind at h'
      rw [hr] at h'
      cases h'
  | exc e =>
      unfold wBind at h'
      rw [hr] at h'
      cases h'

theorem bind_evs_of_ok {α β : Type} {x : W α} {f : α → W β} {a : α}
    (h : x.res = .ok a) : (x >>= f).evs = x.evs ++ (f a).evs := by
  show (wBind x f).evs = _
  unfold wBind
  rw [h]

/-- Every `sys.exit` of a fragment carries code 1 and follows a successful
print of a JSON object on the error stream. -/
def failSpec (x : W α) : Prop :=
  ∀ n, x.res = .exited n → (n = 1 ∧ stderrEvents x.evs ≠ [])

theorem failSpec_bind {α β : Type} {x : W α} {f : α → W β} (hx : failSpec x)
    (hf : ∀ a, failSpec (f a)) : failSpec (x >>= f) := by
  intro n hn
  have hn' : (wBind x f).res = .exited n := hn
  cases hr : x.res with
  | ok a =>
      rw [show (wBind x f).res = (f a).res from by unfold wBind; rw [hr]] at hn'
      obtain ⟨h1, h2⟩ := hf a n hn'
      refine ⟨h1, ?_⟩
      show stderrEvents (wBind x f).evs ≠ []
      rw [show (wBind x f).evs = x.evs ++ (f a).evs from by unfold wBind; rw [hr]]
      unfold stderrEvents at *
      rw [List.filter_append]
      intro hc
      rw [List.append_eq_nil] at hc
      exact h2 hc.2
  | exited m =>
      rw [show (wBind x f).res = .exited m from by unfold wBind; rw [hr]] at hn'
      injection hn' with hmn
      subst hmn
      obtain ⟨h1, h2⟩ := hx _ hr
      refine ⟨h1, ?_⟩
      show stderrEvents (wBind x f).evs ≠ []
      rw [show (wBind x f).evs = x.evs from by unfold wBind; rw [hr]]
      exact h2
  | exc e =>
      rw [show (wBind x f).res = .exc e from by unfold wBind; rw [hr]] at hn'
      cases hn'

theorem failSpec_tryE {α : Type} {x : W α} {h : PyExc → Option (W α)} (hx : failSpec x)
    (hh : ∀ e y, h e = some y → failSpec y) : failSpec (tryE x h) := by
  intro n hn
  cases hr : x.res with
  | ok a =>
      have ht : tryE x h = x := by unfold tryE; rw [hr]
      rw [ht] at hn ⊢
      exact hx n hn
  | exited m =>
      have ht : tryE x h = x := by unfold tryE; rw [hr]
      rw [ht] at hn ⊢
      exact hx n hn
  | exc e =>
      cases hy : h e with
      | none =>
          have ht : (tryE x h).res = .exc e := by unfold tryE; rw [hr]; simp [hy]
          rw [ht] at hn
          cases hn
      | some y =>
          have htr : (tryE x h).res = y.res := by unfold tryE; rw [hr]; simp [hy]
          have hte : (tryE x h).evs = x.evs ++ y.evs := by unfold tryE; rw [hr]; simp [hy]
          rw [htr] at hn
          obtain ⟨h1, h2⟩ := hh e y hy n hn
          refine ⟨h1, ?_⟩
          rw [hte]
          unfold stderrEvents at *
          rw [List.filter_append]
          intro hc
          rw [List.append_eq_nil] at hc
          exact h2 hc.2

theorem failSpec_vizSetup (O : VizOracle) : failSpec (vizSetup O) := by
  unfold vizSetup
  apply failSpec_tryE
  · unfold failSpec stderrEvents importGenai vizKeyCheck
    simp only [bind, wBind, emit, wPure, pure, sysExit, raiseE, printErrJson,
      printDumpsFileKw, List.filter_append]
    intro n
    (repeat' split) <;> (intro hn) <;> simp_all [isErr]
  · intro e y hy
    cases e <;> simp at hy <;> subst hy <;>
      (intro n hn; simp_all [bind, wBind, sysExit, raiseE, printDumpsFileKw])

theorem failSpec_vizText (O : VizOracle) (i : Str) (c : Bool) : failSpec (vizText O i c) := by
  unfold vizText
  split
  · apply failSpec_tryE
    · unfold failSpec liftE
      intro n
      split <;> (intro hn) <;> simp_all [wPure, raiseE]
    · intro e y hy
      simp at hy
      subst hy
      intro n hn
      simp_all [bind, wBind, sysExit, raiseE, printDumpsFileKw]
  · intro n hn
    simp_all [pure, wPure]

theorem failSpec_vizStage1 (O : VizOracle) (ttp : Str) : failSpec (vizStage1 O ttp) := by
  unfold failSpec vizStage1 stderrEvents
  simp only [bind, wBind, emit, wPure, pure, sysExit, raiseE, printErrJson,
    printDumpsFileKw, List.filter_append]
  intro n
  (repeat' split) <;> (intro hn) <;> simp_all [isErr]

theorem failSpec_vizStage2 (O : VizOracle) (op : JsonVal) (i : Str) :
    failSpec (vizStage2 O op i) := by
  unfold failSpec vizStage2 stderrEvents
  simp only [bind, wBind, emit, wPure, pure, sysExit, raiseE, printErrJson,
    printDumpsFileKw, List.filter_append]
  intro n
  (repeat' split) <;> (intro hn) <;> simp_all [isErr]

theorem failSpec_vizStage3 (O : VizOracle) (ct cd : JsonVal) :
    failSpec (vizStage3 O ct cd) := by
  unfold vizStage3
  apply failSpec_bind
  · intro n hn
    simp_all [emit]
  · intro a
    apply failSpec_tryE
    · unfold failSpec stderrEvents vizChartBranch renderCall
      simp only [bind, wBind, emit, liftE, wPure, pure, sysExit, raiseE, printErrJson,
        printDumpsFileKw, List.filter_append]
      intro n
      (repeat' split) <;> (intro hn) <;> simp_all [isErr]
    · intro e y hy
      simp at hy
      subst hy
      intro n hn
      simp_all [bind, wBind, emit, sysExit, raiseE, printDumpsFileKw]

theorem failSpec_viz (O : VizOracle) (i : Str) (c : Bool) :
    failSpec (generate_visualization O i c) := by
  unfold generate_visualization
  apply failSpec_bind (failSpec_vizSetup O)
  intro a
  apply failSpec_bind (failSpec_vizText O i c)
  intro ttp
  apply failSpec_bind (failSpec_vizStage1 O ttp)
  intro s1
  apply failSpec_bind (failSpec_vizStage2 O s1.2 i)
  intro cd
  exact failSpec_vizStage3 O s1.1 cd

/-- Every failing run of the visualization entry point leaves something on
standard error: a JSON error object before a `sys.exit(1)`, or the
interpreter traceback of an uncaught exception. -/
theorem viz_fail_stderr (O : VizOracle) (i : Str) (c : Bool)
    (h : (mainViz O i c).2 ≠ 0) : stderrEvents (mainViz O i c).1 ≠ [] := by
  unfold mainViz runProcess at *
  cases hr : (generate_visualization O i c).res with
  | ok v =>
      rw [hr] at h
      simp at h
  | exited m =>
      exact (failSpec_viz O i c m hr).2
  | exc e =>
      unfold stderrEvents
      show List.filter isErr
        ((generate_visualization O i c).evs ++ [Ev.traceback (excMsg e)]) ≠ []
      rw [List.filter_append]
      intro hc
      rw [List.append_eq_nil] at hc
      simp [isErr] at hc

/-- The chart style drawn for a supported chart-type suggestion. -/
def chosenCt (ct : JsonVal) : Str :=
  if jeqStr ct (toL "bar") then toL "bar"
  else if jeqStr ct (toL "pie") then toL "pie"
  else toL "line"

theorem vizSetup_ok {O : VizOracle} {a : Unit} (h : (vizSetup O).res = .ok a) :
    (vizSetup O).evs = [.configure O.key]
    ∧ O.genaiAvailable = true ∧ keyMissing O.key = false := by
  cases hga : O.genaiAvailable <;> cases hk : keyMissing O.key <;>
    simp_all [vizSetup, importGenai, vizKeyCheck, tryE, bind, wBind, emit, wPure, pure,
      sysExit, raiseE, printDumpsFileKw]

theorem vizText_ok {O : VizOracle} {i ttp : Str} {c : Bool}
    (h : (vizText O i c).res = .ok ttp) :
    (vizText O i c).evs = []
    ∧ ((c = true ∧ O.csvDescribe = .ok ttp) ∨ (c = false ∧ ttp = i)) := by
  cases c <;> rcases hcd : O.csvDescribe with e | d <;>
    simp_all [vizText, tryE, liftE, bind, wBind, wPure, pure, sysExit, raiseE,
      printDumpsFileKw]

theorem vizStage1_ok {O : VizOracle} {ttp : Str} {p : JsonVal × JsonVal}
    (h : (vizStage1 O ttp).res = .ok p) :
    (vizStage1 O ttp).evs = [.genCall (stage1Prompt ttp)]
    ∧ ∃ t meta, O.model (stage1Prompt ttp) = .ok t
        ∧ jsonLoads (stripFence (pyStrip (pyStrip t))) = some meta
        ∧ getItem meta (toL "chart_type_suggestion") = .ok p.1
        ∧ getItem meta (toL "optimized_prompt") = .ok p.2 := by
  rcases hm : O.model (stage1Prompt ttp) with e | t
  · exfalso
    rcases e <;>
      simp_all [vizStage1, bind, wBind, emit, wPure, pure, sysExit, raiseE, printErrJson,
        printDumpsFileKw]
  · rcases hl : jsonLoads (stripFence (pyStrip (pyStrip t))) with _ | meta
    · exfalso
      simp_all [vizStage1, bind, wBind, emit, wPure, pure, sysExit, printErrJson]
    · rcases hc : getItem meta (toL "chart_type_suggestion") with e | ctv
      · exfalso
        simp_all [vizStage1, bind, wBind, emit, wPure, pure, sysExit, raiseE,
          printDumpsFileKw]
      · rcases ho : getItem meta (toL "optimized_prompt") with e | opv
        · exfalso
          simp_all [vizStage1, bind, wBind, emit, wPure, pure, sysExit, raiseE,
            printDumpsFileKw]
        · have hres : (vizStage1 O ttp).res = .ok (ctv, opv) := by
            simp [vizStage1, hm, hl, hc, ho, bind, wBind, emit, wPure, pure]
          rw [h] at hres
          injection hres with hp
          subst hp
          refine ⟨?_, t, meta, rfl, hl, hc, ho⟩
          simp [vizStage1, hm, hl, hc, ho, bind, wBind, emit, wPure, pure]

theorem vizStage2_ok {O : VizOracle} {op cd : JsonVal} {i : Str}
    (h : (vizStage2 O op i).res = .ok cd) :
    (vizStage2 O op i).evs = [.genCall (stage2Prompt op i)]
    ∧ ∃ t, O.model (stage2Prompt op i) = .ok t
        ∧ jsonLoads (stripFence (pyStrip (pyStrip t))) = some cd := by
  rcases hm : O.model (stage2Prompt op i) with e | t
  · exfalso
    rcases e <;>
      simp_all [vizStage2, bind, wBind, emit, wPure, pure, sysExit, raiseE, printErrJson,
        printDumpsFileKw]
  · rcases hl : jsonLoads (stripFence (pyStrip (pyStrip t))) with _ | cd2
    · exfalso
      simp_all [vizStage2, bind, wBind, emit, wPure, pure, sysExit, printErrJson]
    · have hres : (vizStage2 O op i).res = .ok cd2 := by
        simp [vizStage2, hm, hl, bind, wBind, emit, wPure, pure]
      rw [h] at hres
      injection hres with hp
      subst hp
      refine ⟨?_, t, rfl, hl⟩
      simp [vizStage2, hm, hl, bind, wBind, emit, wPure, pure]

theorem vizStage3_ok {O : VizOracle} {ct cd r : JsonVal}
    (h : (vizStage3 O ct cd).res = .ok r) :
    ∃ labels values title,
      extractList cd (toL "label") = .ok labels
      ∧ extractList cd (toL "value") = .ok values
      ∧ getItem cd (toL "title") = .ok title
      ∧ O.renderExc = none
      ∧ (jeqStr ct (toL "bar") = true ∨ jeqStr ct (toL "pie") = true
          ∨ jeqStr ct (toL "line") = true)
      ∧ (vizStage3 O ct cd).evs
          = [.figOpen, .renderChart (chosenCt ct) labels values title, .figClose]
      ∧ r = .obj [(toL "image", .str O.imageB64), (toL "title", title)] := by
  rcases h1 : extractList cd (toL "label") with e1 | labels
  · exfalso
    simp_all [vizStage3, vizChartBranch, renderCall, tryE, liftE, bind, wBind, emit,
      wPure, pure, sysExit, raiseE, printErrJson, printDumpsFileKw]
  rcases h2 : extractList cd (toL "value") with e2 | values
  · exfalso
    simp_all [vizStage3, vizChartBranch, renderCall, tryE, liftE, bind, wBind, emit,
      wPure, pure, sysExit, raiseE, printErrJson, printDumpsFileKw]
  rcases h3 : getItem cd (toL "title") with e3 | title
  · exfalso
    simp_all [vizStage3, vizChartBranch, renderCall, tryE, liftE, bind, wBind, emit,
      wPure, pure, sysExit, raiseE, printErrJson, printDumpsFileKw]
  rcases h4 : O.renderExc with _ | e4
  · by_cases hb1 : jeqStr ct (toL "bar") = true
    · have hres : (vizStage3 O ct cd).res
          = .ok (.obj [(toL "image", .str O.imageB64), (toL "title", title)]) := by
        simp [vizStage3, vizChartBranch, renderCall, tryE, liftE, bind, wBind, emit,
          wPure, pure, h1, h2, h3, h4, hb1]
      rw [h] at hres
      injection hres with hp
      refine ⟨labels, values, title, rfl, rfl, rfl, rfl, Or.inl hb1, ?_, hp⟩
      simp [vizStage3, vizChartBranch, renderCall, tryE, liftE, bind, wBind, emit,
        wPure, pure, h1, h2, h3, h4, hb1, chosenCt]
    · by_cases hb2 : jeqStr ct (toL "pie") = true
      · have hres : (vizStage3 O ct cd).res
            = .ok (.obj [(toL "image", .str O.imageB64), (toL "title", title)]) := by
          simp [vizStage3, vizChartBranch, renderCall, tryE, liftE, bind, wBind, emit,
            wPure, pure, h1, h2, h3, h4, hb1, hb2]
        rw [h] at hres
        injection hres with hp
        refine ⟨labels, values, title, rfl, rfl, rfl, rfl, Or.inr (Or.inl hb2), ?_, hp⟩
        simp [vizStage3, vizChartBranch, renderCall, tryE, liftE, bind, wBind, emit,
          wPure, pure, h1, h2, h3, h4, hb1, hb2, chosenCt]
      · by_cases hb3 : jeqStr ct (toL "line") = true
        · have hres : (vizStage3 O ct cd).res
              = .ok (.obj [(toL "image", .str O.imageB64), (toL "title", title)]) := by
            simp [vizStage3, vizChartBranch, renderCall, tryE, liftE, bind, wBind, emit,
              wPure, pure, h1, h2, h3, h4, hb1, hb2, hb3]
          rw [h] at hres
          injection hres with hp
          refine ⟨labels, values, title, rfl, rfl, rfl, rfl, Or.inr (Or.inr hb3), ?_,
            hp⟩
          simp [vizStage3, vizChartBranch, renderCall, tryE, liftE, bind, wBind, emit,
            wPure, pure, h1, h2, h3, h4, hb1, hb2, hb3, chosenCt]
        · exfalso
          simp_all [vizStage3, vizChartBranch, renderCall, tryE, liftE, bind, wBind,
            emit, wPure, pure, sysExit, raiseE, printErrJson, printDumpsFileKw]
  · exfalso
    by_cases hb1 : jeqStr ct (toL "bar") = true <;>
      by_cases hb2 : jeqStr ct (toL "pie") = true <;>
        by_cases hb3 : jeqStr ct (toL "line") = true <;>
          simp_all [vizStage3, vizChartBranch, renderCall, tryE, liftE, bind, wBind,
            emit, wPure, pure, sysExit, raiseE, printErrJson, printDumpsFileKw]

/-- Chart-drawing events. -/
def isRenderChart : Ev → Bool
  | .renderChart _ _ _ _ => true
  | _ => false

/-- C5: for every Stage-1 model response whose chart_type_suggestion is a
string other than "bar", "pie" or "line", the visualization flow reports an
error (something reaches standard error) and exits with a non-zero code, and
never prints a result on standard output. -/
theorem C5_unsupported_chart_type_fails (O : VizOracle) (i : Str) (c : Bool) (s : Str)
    (hct : ∀ ttp r, (vizStage1 O ttp).res = .ok r → r.1 = .str s)
    (hb : s ≠ toL "bar") (hp : s ≠ toL "pie") (hl : s ≠ toL "line") :
    (mainViz O i c).2 ≠ 0
    ∧ stdoutEvents (mainViz O i c).1 = []
    ∧ stderrEvents (mainViz O i c).1 ≠ [] := by
  have hres : ∀ v, ¬ (generate_visualization O i c).res = .ok v := by
    intro v hv
    unfold generate_visualization at hv
    obtain ⟨a, ha, hv1⟩ := bind_res_ok hv
    obtain ⟨ttp, htt, hv2⟩ := bind_res_ok hv1
    obtain ⟨s1, hs1, hv3⟩ := bind_res_ok hv2
    obtain ⟨cd, hcd, hv4⟩ := bind_res_ok hv3
    obtain ⟨labels, values, title, _, _, _, _, hdisj, _, _⟩ := vizStage3_ok hv4
    have hctv := hct ttp s1 hs1
    rw [hctv] at hdisj
    rcases hdisj with hd | hd | hd
    · simp [jeqStr] at hd
      exact hb hd
    · simp [jeqStr] at hd
      exact hp hd
    · simp [jeqStr] at hd
      exact hl hd
  have hcode : (mainViz O i c).2 ≠ 0 := by
    unfold mainViz runProcess
    cases hr : (generate_visualization O i c).res with
    | ok v => exact absurd hr (hres v)
    | exited m =>
        have h1 := (failSpec_viz O i c m hr).1
        simp [h1]
    | exc e => simp
  refine ⟨hcode, ?_, viz_fail_stderr O i c hcode⟩
  have h0 := viz_no_stdout O i c
  unfold mainViz runProcess
  unfold stdoutEvents at h0 ⊢
  cases hr : (generate_visualization O i c).res with
  | ok v => exact absurd hr (hres v)
  | exited m => simpa using h0
  | exc e => simp [List.filter_append, h0, isOut]

/-- A visualization oracle whose stage-1 response suggests "scatter". -/
def OVscatter : VizOracle :=
  { genaiAvailable := true
    key := some (toL "k")
    model := fun _ =>
      .ok (toL "\x7b\"chart_type_suggestion\": \"scatter\", \"optimized_prompt\": \"p\"\x7d")
    csvDescribe := .ok []
    renderExc := none
    imageB64 := [] }

set_option maxRecDepth 8000 in
theorem C5_unsupported_chart_type_fails_witness :
    ((mainViz OVscatter (toL "d") false).2 ≠ 0
    ∧ stdoutEvents (mainViz OVscatter (toL "d") false).1 = []
    ∧ stderrEvents (mainViz OVscatter (toL "d") false).1 ≠ []) :=
  C5_unsupported_chart_type_fails OVscatter (toL "d") false (toL "scatter")
    (by
      intro ttp r h
      have he : (vizStage1 OVscatter ttp).res
          = .ok (.str (toL "scatter"), .str (toL "p")) := rfl
      rw [he] at h
      injection h with h2
      subst h2
      rfl)
    (by decide) (by decide) (by decide)

/-- C7: every successful visualization run issues exactly two model calls, in
order — stage 1, then stage 2, whose prompt is built from the
optimized_prompt string returned by stage 1 together with the original input
data — and the rendered chart uses only stage 2's extracted title and
data-point labels and values together with stage 1's chart type; the printed
result carries that same title. -/
theorem C7_success_two_calls_and_data_flow (O : VizOracle) (i : Str) (c : Bool)
    (hok : (mainViz O i c).2 = 0) :
    ∃ ttp ct op cd labels values title,
      (vizText O i c).res = .ok ttp
      ∧ (vizStage1 O ttp).res = .ok (ct, op)
      ∧ (vizStage2 O op i).res = .ok cd
      ∧ extractList cd (toL "label") = .ok labels
      ∧ extractList cd (toL "value") = .ok values
      ∧ getItem cd (toL "title") = .ok title
      ∧ genCalls (mainViz O i c).1
          = [.genCall (stage1Prompt ttp), .genCall (stage2Prompt op i)]
      ∧ (mainViz O i c).1.filter isRenderChart
          = [.renderChart (chosenCt ct) labels values title]
      ∧ stdoutEvents (mainViz O i c).1
          = [.outJson (.obj [(toL "image", .str O.imageB64), (toL "title", title)])] := by
  have hr : ∃ v, (generate_visualization O i c).res = .ok v := by
    unfold mainViz runProcess at hok
    cases hr : (generate_visualization O i c).res with
    | ok v => exact ⟨v, rfl⟩
    | exited m =>
        exfalso
        have h1 := (failSpec_viz O i c m hr).1
        rw [hr] at hok
        simp at hok
        omega
    | exc e =>
        exfalso
        rw [hr] at hok
        simp at hok
  obtain ⟨v, hv⟩ := hr
  have hv' := hv
  unfold generate_visualization at hv'
  obtain ⟨a, ha, hv1⟩ := bind_res_ok hv'
  obtain ⟨ttp, htt, hv2⟩ := bind_res_ok hv1
  obtain ⟨s1, hs1, hv3⟩ := bind_res_ok hv2
  obtain ⟨cd, hcd, hv4⟩ := bind_res_ok hv3
  obtain ⟨hev0, hga, hkm⟩ := vizSetup_ok ha
  obtain ⟨hev1, -⟩ := vizText_ok htt
  obtain ⟨hev2, -⟩ := vizStage1_ok hs1
  obtain ⟨hev3, -⟩ := vizStage2_ok hcd
  obtain ⟨labels, values, title, hx1, hx2, hx3, hrx, hdisj, hev4, hvr⟩ := vizStage3_ok hv4
  have htrace : (generate_visualization O i c).evs
      = (vizSetup O).evs ++ ((vizText O i c).evs ++ ((vizStage1 O ttp).evs
        ++ ((vizStage2 O s1.2 i).evs ++ (vizStage3 O s1.1 cd).evs))) := by
    unfold generate_visualization
    rw [bind_evs_of_ok ha, bind_evs_of_ok htt, bind_evs_of_ok hs1, bind_evs_of_ok hcd]
  have hmain : (mainViz O i c).1
      = (generate_visualization O i c).evs ++ [.outJson v] := by
    unfold mainViz runProcess
    rw [hv]
  refine ⟨ttp, s1.1, s1.2, cd, labels, values, title, htt, ?_, hcd, hx1, hx2, hx3,
    ?_, ?_, ?_⟩
  · rw [show (s1.1, s1.2) = s1 from rfl]
    exact hs1
  · rw [hmain, htrace, hev0, hev1, hev2, hev3, hev4]
    simp [genCalls, isGenCall, List.filter_append]
  · rw [hmain, htrace, hev0, hev1, hev2, hev3, hev4]
    simp [isRenderChart, List.filter_append]
  · rw [hmain, htrace, hev0, hev1, hev2, hev3, hev4, hvr]
    simp [stdoutEvents, isOut, List.filter_append]

theorem bind_ok_intro {α β : Type} {x : W α} {f : α → W β} {a : α} {b : β}
    (hx : x.res = .ok a) (hf : (f a).res = .ok b) : (x >>= f).res = .ok b := by
  show (wBind x f).res = .ok b
  unfold wBind
  rw [hx]
  exact hf

/-- The conditions under which a visualization run is fully successful, one
conjunct per thing that can go wrong: the `google.generativeai` import, the
credential, the CSV parse, each of the two model calls, each JSON recovery,
each expected key, the data-point extraction, the chart-type dispatch and the
drawing/saving calls. -/
def VizSuccess (O : VizOracle) (i : Str) (c : Bool) : Prop :=
  O.genaiAvailable = true
  ∧ keyMissing O.key = false
  ∧ ∃ ttp, ((c = true → O.csvDescribe = .ok ttp) ∧ (c = false → ttp = i))
      ∧ ∃ t1 meta ctv opv t2 cd labels values title,
          O.model (stage1Prompt ttp) = .ok t1
          ∧ jsonLoads (stripFence (pyStrip (pyStrip t1))) = some meta
          ∧ getItem meta (toL "chart_type_suggestion") = .ok ctv
          ∧ getItem meta (toL "optimized_prompt") = .ok opv
          ∧ O.model (stage2Prompt opv i) = .ok t2
          ∧ jsonLoads (stripFence (pyStrip (pyStrip t2))) = some cd
          ∧ extractList cd (toL "label") = .ok labels
          ∧ extractList cd (toL "value") = .ok values
          ∧ getItem cd (toL "title") = .ok title
          ∧ (jeqStr ctv (toL "bar") = true ∨ jeqStr ctv (toL "pie") = true
              ∨ jeqStr ctv (toL "line") = true)
          ∧ O.renderExc = none

theorem jeqStr_eq {v : JsonVal} {s : Str} (h : jeqStr v s = true) : v = .str s := by
  cases v <;> simp_all [jeqStr]

/-- C6 (as amended): the visualization flow reports an error and exits
non-zero in exactly the cases where the run is not fully successful — that
is, when the module import fails, the credential is missing, the CSV cannot
be parsed, a model call raises, a response is not valid JSON after
fence-stripping, an expected key (`chart_type_suggestion`, `optimized_prompt`,
`title`, `data_points`, `label`, `value`) is absent or the data-point
extraction fails, the chart-type suggestion is unsupported, or the chart
drawing/saving raises. -/
theorem C6_viz_fails_iff_not_success (O : VizOracle) (i : Str) (c : Bool) :
    (mainViz O i c).2 ≠ 0 ↔ ¬ VizSuccess O i c := by
  constructor
  · intro hfail hsucc
    obtain ⟨hga, hkm, ttp, hcsv, t1, meta, ctv, opv, t2, cd, labels, values, title,
      hm1, hl1, hc1, ho1, hm2, hl2, he1, he2, he3, hdisj, hrx⟩ := hsucc
    have hs0 : (vizSetup O).res = .ok () := by
      simp [vizSetup, importGenai, vizKeyCheck, tryE, bind, wBind, emit, wPure, pure,
        hga, hkm]
    have hs1 : (vizText O i c).res = .ok ttp := by
      cases c with
      | true =>
          simp [vizText, liftE, tryE, hcsv.1 rfl, bind, wBind, wPure, pure]
      | false =>
          rw [hcsv.2 rfl]
          simp [vizText, pure, wPure]
    have hs2 : (vizStage1 O ttp).res = .ok (ctv, opv) := by
      simp [vizStage1, hm1, hl1, hc1, ho1, bind, wBind, emit, wPure, pure]
    have hs3 : (vizStage2 O opv i).res = .ok cd := by
      simp [vizStage2, hm2, hl2, bind, wBind, emit, wPure, pure]
    have hs4 : (vizStage3 O ctv cd).res
        = .ok (.obj [(toL "image", .str O.imageB64), (toL "title", title)]) := by
      rcases hdisj with hd | hd | hd <;> rw [jeqStr_eq hd]
      · simp [vizStage3, vizChartBranch, renderCall, tryE, liftE, bind, wBind, emit,
          wPure, pure, he1, he2, he3, hrx,
          show jeqStr (JsonVal.str (toL "bar")) (toL "bar") = true from by decide]
      · simp [vizStage3, vizChartBranch, renderCall, tryE, liftE, bind, wBind, emit,
          wPure, pure, he1, he2, he3, hrx,
          show jeqStr (JsonVal.str (toL "pie")) (toL "bar") = false from by decide,
          show jeqStr (JsonVal.str (toL "pie")) (toL "pie") = true from by decide]
      · simp [vizStage3, vizChartBranch, renderCall, tryE, liftE, bind, wBind, emit,
          wPure, pure, he1, he2, he3, hrx,
          show jeqStr (JsonVal.str (toL "line")) (toL "bar") = false from by decide,
          show jeqStr (JsonVal.str (toL "line")) (toL "pie") = false from by decide,
          show jeqStr (JsonVal.str (toL "line")) (toL "line") = true from by decide]
    have hv : (generate_visualization O i c).res
        = .ok (.obj [(toL "image", .str O.imageB64), (toL "title", title)]) := by
      unfold generate_visualization
      exact bind_ok_intro hs0 (bind_ok_intro hs1 (bind_ok_intro hs2
        (bind_ok_intro hs3 hs4)))
    apply hfail
    unfold mainViz runProcess
    rw [hv]
  · intro hns hz
    apply hns
    have hr : ∃ v, (generate_visualization O i c).res = .ok v := by
      unfold mainViz runProcess at hz
      cases hr : (generate_visualization O i c).res with
      | ok v => exact ⟨v, rfl⟩
      | exited m =>
          exfalso
          have h1 := (failSpec_viz O i c m hr).1
          rw [hr] at hz
          simp at hz
          omega
      | exc e =>
          exfalso
          rw [hr] at hz
          simp at hz
    obtain ⟨v, hv⟩ := hr
    unfold generate_visualization at hv
    obtain ⟨a, ha, hv1⟩ := bind_res_ok hv
    obtain ⟨ttp, htt, hv2⟩ := bind_res_ok hv1
    obtain ⟨s1, hs1, hv3⟩ := bind_res_ok hv2
    obtain ⟨cd, hcd, hv4⟩ := bind_res_ok hv3
    obtain ⟨-, hga, hkm⟩ := vizSetup_ok ha
    obtain ⟨-, hcsv⟩ := vizText_ok htt
    obtain ⟨-, t1, meta, hm1, hl1, hc1, ho1⟩ := vizStage1_ok hs1
    obtain ⟨-, t2, hm2, hl2⟩ := vizStage2_ok hcd
    obtain ⟨labels, values, title, hx1, hx2, hx3, hrx, hdisj, -, -⟩ := vizStage3_ok hv4
    refine ⟨hga, hkm, ttp, ?_, t1, meta, s1.1, s1.2, t2, cd, labels, values, title,
      hm1, hl1, hc1, ho1, hm2, hl2, hx1, hx2, hx3, hdisj, hrx⟩
    rcases hcsv with ⟨hc1, hc2⟩ | ⟨hc1, hc2⟩
    · subst hc1
      refine ⟨fun _ => hc2, fun h => ?_⟩
      cases h
    · subst hc1
      refine ⟨fun h => ?_, fun _ => hc2⟩
      cases h

/-- Modelled from the spec: the failure cases §4.1 enumerates for the prompt
orchestrator — credential missing, a model response that is not valid JSON
after fence-stripping, or an expected key absent from the parsed object
(generously quantified over any prompt and either stage's key set). -/
def c6ClaimedCases (O : VizOracle) : Prop :=
  keyMissing O.key = true
  ∨ (∃ p t, O.model p = .ok t
      ∧ jsonLoads (stripFence (pyStrip (pyStrip t))) = none)
  ∨ (∃ p t meta k e, O.model p = .ok t
      ∧ jsonLoads (stripFence (pyStrip (pyStrip t))) = some meta
      ∧ k ∈ [toL "chart_type_suggestion", toL "optimized_prompt", toL "title",
             toL "data_points", toL "label", toL "value"]
      ∧ (getItem meta k = .error e ∨ extractList meta k = .error e))

/-- A visualization oracle with a valid credential whose model call raises a
network-style exception. -/
def OVnet : VizOracle :=
  { genaiAvailable := true
    key := some (toL "k")
    model := fun _ => .error (.other (toL "network down"))
    csvDescribe := .ok []
    renderExc := none
    imageB64 := [] }

/-- C6, counterexample to the claim as stated: with a valid credential and a
model call that raises (so there is no response to parse and no key to be
absent), the run still reports an error and exits non-zero — a failure case
outside the claim's enumeration. -/
theorem C6_model_raise_fails_outside_enumeration :
    (mainViz OVnet (toL "d") false).2 ≠ 0 ∧ ¬ c6ClaimedCases OVnet := by
  constructor
  · rw [show (mainViz OVnet (toL "d") false).2 = 1 from rfl]
    decide
  · intro h
    rcases h with h | ⟨p, t, hm, -⟩ | ⟨p, t, meta, k, e, hm, -⟩
    · exact absurd h (by decide)
    · rw [show OVnet.model p = .error (.other (toL "network down")) from rfl] at hm
      cases hm
    · rw [show OVnet.model p = .error (.other (toL "network down")) from rfl] at hm
      cases hm

/-- A visualization oracle describing a fully successful run: stage 1 answers
with a fence-wrapped meta-suggestion, stage 2 with a chart-data object. -/
def OVok : VizOracle :=
  { genaiAvailable := true
    key := some (toL "k")
    model := fun p =>
      if p = stage1Prompt (toL "data") then
        .ok (toL "```json\n\x7b\"chart_type_suggestion\": \"bar\", \"optimized_prompt\": \"sum it\"\x7d\n```")
      else
        .ok (toL "\x7b\"title\": \"T\", \"data_points\": [\x7b\"label\": \"a\", \"value\": 1, \"summary\": \"s\"\x7d]\x7d")
    csvDescribe := .ok (toL "desc")
    renderExc := none
    imageB64 := toL "IMG" }

set_option maxRecDepth 10000 in
/-- Witness: a concrete fully successful run exiting 0, on which the
two-calls-and-data-flow theorem instantiates. -/
theorem C7_success_two_calls_and_data_flow_witness :
    (mainViz OVok (toL "data") false).2 = 0
    ∧ ∃ ttp ct op cd labels values title,
      (vizText OVok (toL "data") false).res = .ok ttp
      ∧ (vizStage1 OVok ttp).res = .ok (ct, op)
      ∧ (vizStage2 OVok op (toL "data")).res = .ok cd
      ∧ extractList cd (toL "label") = .ok labels
      ∧ extractList cd (toL "value") = .ok values
      ∧ getItem cd (toL "title") = .ok title
      ∧ genCalls (mainViz OVok (toL "data") false).1
          = [.genCall (stage1Prompt ttp), .genCall (stage2Prompt op (toL "data"))]
      ∧ (mainViz OVok (toL "data") false).1.filter isRenderChart
          = [.renderChart (chosenCt ct) labels values title]
      ∧ stdoutEvents (mainViz OVok (toL "data") false).1
          = [.outJson (.obj [(toL "image", .str OVok.imageB64), (toL "title", title)])] :=
  ⟨rfl, C7_success_two_calls_and_data_flow OVok (toL "data") false rfl⟩

end NanoQ
